import Mathlib

/-!
Verification development for the FANZAScraper pipeline.

Shallow embedding of the Python sources under `app/` (providers/fanza.py,
core/filters.py, core/csv_dedupe.py, core/wp_rest.py, core/pipeline.py,
core/config.py).  Python strings are modelled as `List Char` (`Str`), Python
dynamically-typed values as `PyVal`, and Python exceptions as `Except PyErr`.
Lowercasing is modelled on the ASCII range, which covers every URL and marker
string handled by the code.  Each definition carries a reference to the source
lines it embeds.
-/

/-- Python `str` modelled as a list of characters. -/
abbrev Str := List Char

/-- ASCII lower-casing of one character (model of `str.lower` per char). -/
def lowerChar (c : Char) : Char :=
  if ('A' ≤ c && c ≤ 'Z') then Char.ofNat (c.toNat + 32) else c

/-- Model of Python `s.lower()` (ASCII range). -/
def lowerStr (s : Str) : Str := s.map lowerChar

/-- `startsWithB pat s = true` iff `pat` is a prefix of `s`. -/
def startsWithB : Str → Str → Bool
  | [], _ => true
  | _ :: _, [] => false
  | p :: ps, c :: cs => p = c && startsWithB ps cs

/-- Model of Python substring test `pat in s`. -/
def containsSub : Str → Str → Bool
  | s, pat =>
    startsWithB pat s ||
      (match s with
       | [] => false
       | _ :: cs => containsSub cs pat)

/-- `endsWithB s pat = true` iff `pat` is a suffix of `s` (Python `s.endswith(pat)`). -/
def endsWithB (s pat : Str) : Bool := startsWithB pat.reverse s.reverse

/-- Python dynamically-typed values (the subset the scraper manipulates). -/
inductive PyVal where
  | pstr (s : Str)
  | pint (n : Int)
  | plist (xs : List PyVal)
  | pdict (kvs : List (Str × PyVal))
  | pnone
deriving Repr

/-- Python exception classes raised by the embedded code. -/
inductive PyErr where
  | typeError
  | attributeError
deriving Repr, DecidableEq

/-- Python truthiness of a value. -/
def truthy : PyVal → Bool
  | .pstr s => !s.isEmpty
  | .pint n => decide (n ≠ 0)
  | .plist xs => !xs.isEmpty
  | .pdict kvs => !kvs.isEmpty
  | .pnone => false

namespace Fanza

/-- app/providers/fanza.py lines 283-286, `_is_now_printing_url_like` on a string. -/
def is_now_printing_url_like (u : Str) : Bool :=
  if u.isEmpty then true
  else
    let s := lowerStr u
    containsSub s (("now_printing").data) || containsSub s (("nowprinting").data) ||
      containsSub s (("noimage").data) || containsSub s (("no_image").data) ||
      containsSub s (("nopic").data) || containsSub s (("noimg").data)

/-- app/providers/fanza.py lines 283-286 lifted to `PyVal` arguments:
`_is_now_printing_url_like(None)` hits the `if not u` branch, while a truthy
non-string argument would raise `AttributeError` at `u.lower()`. -/
def is_now_printing_url_like_val (v : PyVal) : Except PyErr Bool :=
  if !(truthy v) then .ok true
  else match v with
    | .pstr s => .ok (is_now_printing_url_like s)
    | _ => .error .attributeError

/-- app/providers/fanza.py lines 288-293, `_fast_placeholder_heuristic`:
URL-only placeholder detection. -/
def fast_placeholder_heuristic (u : Str) : Bool :=
  if u.isEmpty then true
  else
    let s := lowerStr u
    containsSub s (("now_print").data) || containsSub s (("nowprinting").data) ||
      containsSub s (("noimage").data) || containsSub s (("no_image").data) ||
      containsSub s (("nopic").data) || containsSub s (("noimg").data)

/-- Result of a `requests.head` call as observed by `_probe_is_placeholder`:
the final URL after redirects and the Content-Length header if present. -/
structure HeadResp where
  finalUrl : Str
  contentLength : Option Str

/-- Python `cl.isdigit()`: nonempty and all digits. -/
def isDigitStr (s : Str) : Bool := !s.isEmpty && s.all (fun c => c.isDigit)

/-- Decimal value of a digit string (model of `int(cl)`). -/
def strToNat (s : Str) : Nat := s.foldl (fun a c => a * 10 + (c.toNat - ('0').toNat)) 0

/-- app/providers/fanza.py lines 295-311, `_probe_is_placeholder`.
The network is modelled by `net : Str → Option HeadResp` (`none` = the HEAD
request raised); the second component of the result counts HTTP requests
issued.  The `verify`/`timeout` parameters only shape the HTTP call and are
absorbed into `net`. -/
def probe_is_placeholder (net : Str → Option HeadResp) (use_network : Bool)
    (u : Str) : Bool × Nat :=
  if fast_placeholder_heuristic u then (true, 0)
  else if (!use_network) || u.isEmpty then (false, 0)
  else
    match net u with
    | none => (false, 1)
    | some r =>
      let final := lowerStr r.finalUrl
      if containsSub final (("now_print").data) || containsSub final (("nowprinting").data) ||
          containsSub final (("noimage").data) || containsSub final (("no_image").data) then
        (true, 1)
      else
        match r.contentLength with
        | some cl =>
          if isDigitStr cl && decide (strToNat cl < 15000) then (true, 1) else (false, 1)
        | none => (false, 1)

end Fanza

/-- The placeholder marker substrings named by the specification. -/
def specPlaceholderMarkers : List Str :=
  [("now_print").data, ("noimage").data, ("no_image").data, ("nopic").data, ("noimg").data]

/-- C8: every image URL containing a known placeholder marker substring is
classified as a placeholder by the URL-only heuristic, and the network-enabled
probe returns true for such URLs before issuing any HTTP request. -/
theorem C8_marker_url_is_placeholder_without_network
    (u : Str) (net : Str → Option Fanza.HeadResp) (use_network : Bool)
    (h : ∃ m ∈ specPlaceholderMarkers, containsSub (lowerStr u) m = true) :
    Fanza.fast_placeholder_heuristic u = true ∧
      Fanza.probe_is_placeholder net use_network u = (true, 0) := by
  have hfast : Fanza.fast_placeholder_heuristic u = true := by
    rcases h with ⟨m, hm, hc⟩
    by_cases he : u.isEmpty
    · simp [Fanza.fast_placeholder_heuristic, he]
    · simp only [specPlaceholderMarkers, List.mem_cons, List.mem_singleton,
        List.not_mem_nil, or_false] at hm
      rcases hm with rfl | rfl | rfl | rfl | rfl <;>
        simp [Fanza.fast_placeholder_heuristic, he, hc]
  refine ⟨hfast, ?_⟩
  simp [Fanza.probe_is_placeholder, hfast]

theorem C8_marker_url_is_placeholder_without_network_witness :
    Fanza.fast_placeholder_heuristic (("https://p.dmm.co.jp/noimage.jpg").data) = true ∧
      Fanza.probe_is_placeholder (fun _ => none) true
        (("https://p.dmm.co.jp/noimage.jpg").data) = (true, 0) :=
  C8_marker_url_is_placeholder_without_network _ _ _ (by decide)

/-- C10: the URL-only placeholder heuristics classify an empty or missing URL
as a placeholder: `_fast_placeholder_heuristic ""` is true, and
`_is_now_printing_url_like None` is true, although the empty string contains
no placeholder marker substring. -/
theorem C10_empty_url_classified_placeholder :
    Fanza.fast_placeholder_heuristic [] = true ∧
      Fanza.is_now_printing_url_like_val PyVal.pnone = .ok true ∧
      specPlaceholderMarkers.all (fun m => !containsSub (lowerStr []) m) = true :=
  ⟨by decide, rfl, by decide⟩

/-- Python ASCII whitespace for `str.strip()`. -/
def isSpaceChar (c : Char) : Bool :=
  c = ' ' || c = '\t' || c = '\n' || c = '\r' || c = '\x0b' || c = '\x0c'

/-- Model of Python `s.strip()`. -/
def pyStrip (s : Str) : Str :=
  ((s.dropWhile isSpaceChar).reverse.dropWhile isSpaceChar).reverse

namespace Filters

/-- A compiled regular-expression pattern is modelled by its matching
predicate: `p text = true` iff `re.search(p, text, re.I)` would find a match.
Monotonicity of the filter engine depends only on list membership, not on the
regex language itself. -/
def Pattern := Str → Bool

/-- app/core/filters.py lines 4-5, `_match_any`.  `patterns or []` and
`text or ""` are identities at this type. -/
def match_any (patterns : List Pattern) (text : Str) : Bool :=
  patterns.any (fun p => p text)

/-- app/core/filters.py lines 7-12, `_check_field`. -/
def check_field (text : Str) (includes excludes : List Pattern) : Bool :=
  if !includes.isEmpty && !match_any includes text then false
  else if !excludes.isEmpty && match_any excludes text then false
  else true

/-- The record fields read by `apply_filters` (`r.get("maker","")` etc.). -/
structure FilterRecord where
  maker : Str
  actress : Str
  genres : Str
  title : Str
  cid : Str

/-- The pattern lists carried by `args` in `apply_filters`
(`include_cid_pre`/`exclude_cid_pre` stand for the source's cid-..."prefix"
argument pair). -/
structure FilterArgs where
  include_maker : List Pattern
  exclude_maker : List Pattern
  include_actress : List Pattern
  exclude_actress : List Pattern
  include_genre : List Pattern
  exclude_genre : List Pattern
  include_title : List Pattern
  exclude_title : List Pattern
  include_cid_pre : List Pattern
  exclude_cid_pre : List Pattern

/-- The per-record predicate of app/core/filters.py lines 17-27: a record is
kept iff no `continue` fires.  Each conjunct mirrors one source line. -/
def passes (r : FilterRecord) (a : FilterArgs) : Bool :=
  check_field r.maker a.include_maker a.exclude_maker &&
  check_field r.actress a.include_actress a.exclude_actress &&
  check_field r.genres a.include_genre a.exclude_genre &&
  check_field r.title a.include_title a.exclude_title &&
  (a.include_cid_pre.isEmpty || match_any a.include_cid_pre r.cid) &&
  (a.exclude_cid_pre.isEmpty || !match_any a.exclude_cid_pre r.cid)

/-- app/core/filters.py lines 14-28, `apply_filters`. -/
def apply_filters (rows : List FilterRecord) (a : FilterArgs) : List FilterRecord :=
  rows.filter (fun r => passes r a)

/-- One of the ten pattern lists of `FilterArgs`, by field. -/
inductive FField where
  | maker | actress | genre | title | cidPre

def includeListOf (f : FField) (a : FilterArgs) : List Pattern :=
  match f with
  | .maker => a.include_maker
  | .actress => a.include_actress
  | .genre => a.include_genre
  | .title => a.include_title
  | .cidPre => a.include_cid_pre

def addInclude (f : FField) (p : Pattern) (a : FilterArgs) : FilterArgs :=
  match f with
  | .maker => { a with include_maker := p :: a.include_maker }
  | .actress => { a with include_actress := p :: a.include_actress }
  | .genre => { a with include_genre := p :: a.include_genre }
  | .title => { a with include_title := p :: a.include_title }
  | .cidPre => { a with include_cid_pre := p :: a.include_cid_pre }

def addExclude (f : FField) (p : Pattern) (a : FilterArgs) : FilterArgs :=
  match f with
  | .maker => { a with exclude_maker := p :: a.exclude_maker }
  | .actress => { a with exclude_actress := p :: a.exclude_actress }
  | .genre => { a with exclude_genre := p :: a.exclude_genre }
  | .title => { a with exclude_title := p :: a.exclude_title }
  | .cidPre => { a with exclude_cid_pre := p :: a.exclude_cid_pre }

lemma check_field_eq (t : Str) (inc exc : List Pattern) :
    check_field t inc exc =
      ((inc.isEmpty || match_any inc t) && (exc.isEmpty || !match_any exc t)) := by
  unfold check_field
  cases hi : inc.isEmpty <;> cases hm : match_any inc t <;>
    cases he : exc.isEmpty <;> cases hx : match_any exc t <;> simp [hi, hm, he, hx]

lemma check_field_exclude_mono {text : Str} {inc exc : List Pattern} {p : Pattern}
    (h : check_field text inc (p :: exc) = true) : check_field text inc exc = true := by
  rw [check_field_eq] at h ⊢
  simp only [Bool.and_eq_true, Bool.or_eq_true, Bool.not_eq_true'] at h ⊢
  obtain ⟨h1, h2⟩ := h
  refine ⟨h1, ?_⟩
  rcases h2 with h2 | h2
  · simp [List.isEmpty] at h2
  · right
    simp only [match_any, List.any_cons, Bool.or_eq_false_iff] at h2
    simpa [match_any] using h2.2

lemma check_field_include_mono {text : Str} {inc exc : List Pattern} {p : Pattern}
    (hne : inc ≠ []) (h : check_field text inc exc = true) :
    check_field text (p :: inc) exc = true := by
  rw [check_field_eq] at h ⊢
  simp only [Bool.and_eq_true, Bool.or_eq_true] at h ⊢
  obtain ⟨h1, h2⟩ := h
  refine ⟨?_, h2⟩
  rcases h1 with h1 | h1
  · exact absurd (List.isEmpty_iff.1 h1) hne
  · right
    simp only [match_any, List.any_cons, Bool.or_eq_true]
    right
    simpa [match_any] using h1

lemma passes_true_iff (r : FilterRecord) (a : FilterArgs) :
    passes r a = true ↔
      (check_field r.maker a.include_maker a.exclude_maker = true ∧
       check_field r.actress a.include_actress a.exclude_actress = true ∧
       check_field r.genres a.include_genre a.exclude_genre = true ∧
       check_field r.title a.include_title a.exclude_title = true ∧
       (a.include_cid_pre.isEmpty || match_any a.include_cid_pre r.cid) = true ∧
       (a.exclude_cid_pre.isEmpty || !match_any a.exclude_cid_pre r.cid) = true) := by
  simp [passes, and_assoc]

lemma cid_exclude_mono {l : List Pattern} {p : Pattern} {cid : Str}
    (h : ((p :: l).isEmpty || !match_any (p :: l) cid) = true) :
    (l.isEmpty || !match_any l cid) = true := by
  have h1 : match_any (p :: l) cid = false := by
    simpa [List.isEmpty_cons, Bool.not_eq_true'] using h
  have h2 : match_any l cid = false := by
    simp only [match_any, List.any_cons, Bool.or_eq_false_iff] at h1
    simpa [match_any] using h1.2
  simp [h2]

lemma cid_include_mono {l : List Pattern} {p : Pattern} {cid : Str} (hne : l ≠ [])
    (h : (l.isEmpty || match_any l cid) = true) :
    ((p :: l).isEmpty || match_any (p :: l) cid) = true := by
  have h1 : match_any l cid = true := by
    cases hle : l.isEmpty
    · simpa [hle] using h
    · exact absurd (List.isEmpty_iff.1 hle) hne
  simp only [List.isEmpty_cons, Bool.false_or, match_any, List.any_cons, Bool.or_eq_true]
  right
  simpa [match_any] using h1

/-- C7 (amended): `passes` is monotone for exclude lists unconditionally, and
for include lists provided the include list being extended is already
nonempty: adding a pattern to an exclude list never turns a failing record
passing, and adding a pattern to a nonempty include list never turns a
passing record failing.  (Adding a pattern to an *empty* include list is not
monotone; see the counterexample.) -/
theorem C7_filter_monotonicity (r : FilterRecord) (a : FilterArgs) (f : FField) (p : Pattern) :
    (passes r (addExclude f p a) = true → passes r a = true) ∧
      (includeListOf f a ≠ [] →
        passes r a = true → passes r (addInclude f p a) = true) := by
  constructor
  · cases f
    all_goals
      intro h
      simp only [addExclude] at h
      rw [passes_true_iff] at h ⊢
      obtain ⟨h1, h2, h3, h4, h5, h6⟩ := h
    · exact ⟨check_field_exclude_mono h1, h2, h3, h4, h5, h6⟩
    · exact ⟨h1, check_field_exclude_mono h2, h3, h4, h5, h6⟩
    · exact ⟨h1, h2, check_field_exclude_mono h3, h4, h5, h6⟩
    · exact ⟨h1, h2, h3, check_field_exclude_mono h4, h5, h6⟩
    · exact ⟨h1, h2, h3, h4, h5, cid_exclude_mono h6⟩
  · cases f
    all_goals
      intro hne h
      simp only [includeListOf] at hne
      simp only [addInclude]
      rw [passes_true_iff] at h ⊢
      obtain ⟨h1, h2, h3, h4, h5, h6⟩ := h
    · exact ⟨check_field_include_mono hne h1, h2, h3, h4, h5, h6⟩
    · exact ⟨h1, check_field_include_mono hne h2, h3, h4, h5, h6⟩
    · exact ⟨h1, h2, check_field_include_mono hne h3, h4, h5, h6⟩
    · exact ⟨h1, h2, h3, check_field_include_mono hne h4, h5, h6⟩
    · exact ⟨h1, h2, h3, h4, cid_include_mono hne h5, h6⟩

end Filters

/-- Concrete record for refuting C7 as stated. -/
def c7rec : Filters.FilterRecord :=
  { maker := ("abc").data, actress := [], genres := [], title := [], cid := [] }

/-- Filter spec with every pattern list empty. -/
def c7spec0 : Filters.FilterArgs :=
  { include_maker := [], exclude_maker := [], include_actress := [], exclude_actress := []
    include_genre := [], exclude_genre := [], include_title := [], exclude_title := []
    include_cid_pre := [], exclude_cid_pre := [] }

/-- Denotation of the regex `xyz` under `re.I`: case-insensitive substring. -/
def c7pat : Filters.Pattern := fun t => containsSub (lowerStr t) (("xyz").data)

/-- C7 (counterexample): adding a pattern to an *empty* include list turns a
passing record into a failing one — `passes` holds with no include patterns
but fails once the include-maker list becomes `["xyz"]`, refuting the claimed
include-side monotonicity. -/
theorem C7_counterexample :
    Filters.passes c7rec c7spec0 = true ∧
      Filters.passes c7rec (Filters.addInclude .maker c7pat c7spec0) = false :=
  ⟨rfl, rfl⟩

namespace CsvDedupe

/-- app/core/csv_dedupe.py line 50-52: the fixed ledger column order used by
`append_ledger` when `field_order` is not given. -/
def default_ledger_fields : List Str :=
  [("cid").data, ("title").data, ("date").data, ("maker").data, ("actress").data,
   ("URL").data, ("image_large").data, ("sample_images").data, ("posted_at").data]

/-- app/core/csv_dedupe.py lines 45-57, `append_ledger`.  A CSV file is
modelled at the parsed level as its list of rows (each a list of fields);
the `csv` module's quoting layer round-trips fields exactly.  `none` for
`file` models a nonexistent path (header written first); `row_dict` is the
record, `DictWriter(..., extrasaction="ignore")` keeps exactly the fields of
the column order, a missing key is written as the empty field (`restval`). -/
def append_ledger (file : Option (List (List Str))) (row_dict : Str → Option Str)
    (field_order : Option (List Str)) : List (List Str) :=
  let fields := field_order.getD default_ledger_fields
  let row := fields.map (fun f => (row_dict f).getD [])
  match file with
  | none => [fields, row]
  | some rs => rs ++ [row]

/-- `csv.DictReader`'s per-row dictionary lookup: `dict(zip(fieldnames, row))`
(later duplicate column names overwrite earlier ones), restval `None` for a
short row. -/
def dictRowGet (header row : List Str) (key : Str) : Option Str :=
  (((header.zip row).filter (fun kv => kv.1 = key)).getLast?).map (fun kv => kv.2)

/-- app/core/csv_dedupe.py lines 27-38: the per-file body of `load_skip_cids`
on one parsed CSV file.  The first row is the header; key resolution prefers
`colname`, else the first header cell whose lower-casing is `cid` or contains
`content_id` (`key = alt or colname`); every nonempty stripped value of that
column enters the skip set (modelled as a duplicate-free list). -/
def load_skip_cids_file (rows : List (List Str)) (colname : Str) : List Str :=
  match rows with
  | [] => []
  | header :: body =>
    let key :=
      if header.contains colname then colname
      else
        match header.find? (fun c =>
            lowerStr c = ("cid").data || containsSub (lowerStr c) (("content_id").data)) with
        | some alt => if alt.isEmpty then colname else alt
        | none => colname
    body.foldl (fun acc row =>
      let v := pyStrip ((dictRowGet header row key).getD [])
      if !v.isEmpty && !acc.contains v then acc ++ [v] else acc) []

lemma skip_fold_mem (header : List Str) (key : Str) (body : List (List Str))
    (acc : List Str) (v : Str) (hv : acc.contains v = true) :
    ((body.foldl (fun acc row =>
        let w := pyStrip ((dictRowGet header row key).getD [])
        if !w.isEmpty && !acc.contains w then acc ++ [w] else acc) acc)).contains v = true := by
  induction body generalizing acc with
  | nil => simpa using hv
  | cons r rs ih =>
    simp only [List.foldl_cons]
    apply ih
    have hv2 : v ∈ acc := List.mem_of_elem_eq_true hv
    split
    · exact List.elem_eq_true_of_mem (List.mem_append_left _ hv2)
    · exact hv

lemma skip_step_mem (acc : List Str) (v : Str) (hne : (!v.isEmpty) = true) :
    ((if !v.isEmpty && !acc.contains v then acc ++ [v] else acc)).contains v = true := by
  cases hmem : acc.contains v
  · rw [if_pos (by simp [hne, hmem])]
    exact List.elem_eq_true_of_mem (List.mem_append_right _ (List.mem_singleton_self v))
  · rw [if_neg (by simp [hmem])]
    exact hmem

end CsvDedupe

/-- C6 (amended): appending a record through `append_ledger` and reading the
same file back with the skip-set builder yields the *whitespace-stripped*
`external_id` in the skip set, provided the id is nonempty after stripping;
this holds both for a fresh ledger file and when appending to a ledger whose
header is the default column order. -/
theorem C6_ledger_roundtrip (record : Str → Option Str) (rs : List (List Str))
    (h : pyStrip ((record (("cid").data)).getD []) ≠ []) :
    (CsvDedupe.load_skip_cids_file
        (CsvDedupe.append_ledger none record none) (("cid").data)).contains
      (pyStrip ((record (("cid").data)).getD [])) = true ∧
    (CsvDedupe.load_skip_cids_file
        (CsvDedupe.append_ledger (some (CsvDedupe.default_ledger_fields :: rs)) record none)
        (("cid").data)).contains
      (pyStrip ((record (("cid").data)).getD [])) = true := by
  have hget : CsvDedupe.dictRowGet CsvDedupe.default_ledger_fields
      (CsvDedupe.default_ledger_fields.map (fun f => (record f).getD []))
      (("cid").data) = some ((record (("cid").data)).getD []) := rfl
  have hne : (!(pyStrip ((record (("cid").data)).getD [])).isEmpty) = true := by
    simpa [List.isEmpty_iff] using h
  constructor
  · simp only [CsvDedupe.append_ledger, CsvDedupe.load_skip_cids_file, Option.getD_none]
    rw [if_pos (by decide)]
    simp only [List.foldl_cons, List.foldl_nil, hget, Option.getD_some]
    exact CsvDedupe.skip_step_mem [] _ hne
  · simp only [CsvDedupe.append_ledger, CsvDedupe.load_skip_cids_file, Option.getD_none,
      List.cons_append]
    rw [if_pos (by decide)]
    rw [List.foldl_append]
    simp only [List.foldl_cons, List.foldl_nil, hget, Option.getD_some]
    exact CsvDedupe.skip_step_mem _ _ hne

/-- A record whose `cid` value is a lone blank: nonempty, but stripped empty. -/
def c6record : Str → Option Str :=
  fun f => if f = ("cid").data then some ((" ").data) else none

/-- C6 (counterexample): a record with the *nonempty* external_id `" "` is
appended to a fresh ledger, yet reading the file back yields an empty skip
set — the stored id is stripped to the empty string and dropped, so the skip
set does not contain the record's external_id, refuting the round-trip claim
as stated for all nonempty ids. -/
theorem C6_counterexample :
    ((" ").data ≠ ([] : Str)) ∧
      CsvDedupe.load_skip_cids_file
        (CsvDedupe.append_ledger none c6record none) (("cid").data) = [] := by
  constructor
  · decide
  · rfl

namespace WpRest

/-- A post on the remote WordPress site, as visible to the client: its id,
its `external_id` meta field, and its payload (represented by the title). -/
structure Post where
  id : Nat
  external_id : Str
  title : Str
deriving Repr, DecidableEq

/-- The remote site's post collection, in server listing order. -/
abbrev WPState := List Post

/-- app/core/wp_rest.py lines 99-117, `find_post_id_by_external`: strip the
id, return `None` when empty, otherwise the id of the first listed post whose
`external_id` meta equals the stripped id exactly (the code requests posts
filtered by the meta value and re-checks equality strictly). -/
def find_post_id_by_external (s : WPState) (external_id : Str) : Option Nat :=
  let eid := pyStrip external_id
  if eid.isEmpty then none
  else (s.find? (fun p => p.external_id = eid)).map (fun p => p.id)

/-- A fresh id assigned by the server on creation: one more than the largest
existing id. -/
def freshId (s : WPState) : Nat := (s.map (fun p => p.id)).foldr max 0 + 1

/-- app/core/wp_rest.py lines 139-168, `create_or_update_post`: resolve an
existing post id via `find_post_id_by_external`; if found, POST the payload to
that post (update), else POST to the collection (create).  The payload's meta
carries the raw `external_id`.  Returns the new state and the post id. -/
def create_or_update_post (s : WPState) (title external_id : Str) : WPState × Nat :=
  match find_post_id_by_external s external_id with
  | some pid =>
    (s.map (fun p =>
      if p.id = pid then { p with external_id := external_id, title := title } else p), pid)
  | none =>
    let pid := freshId s
    (s ++ [{ id := pid, external_id := external_id, title := title }], pid)

/-- Number of remote posts whose `external_id` equals `eid`. -/
def countByExternal (s : WPState) (eid : Str) : Nat :=
  (s.filter (fun p => p.external_id = eid)).length

lemma countByExternal_eq_countP (s : WPState) (eid : Str) :
    countByExternal s eid = s.countP (fun p => p.external_id = eid) :=
  (List.countP_eq_length_filter _ _).symm

lemma mem_le_foldr_max (l : List Nat) (x : Nat) (hx : x ∈ l) : x ≤ l.foldr max 0 := by
  induction l with
  | nil => cases hx
  | cons a as ih =>
    rcases List.mem_cons.1 hx with rfl | hx2
    · exact le_max_left _ _
    · exact le_trans (ih hx2) (le_max_right _ _)

lemma freshId_not_mem (s : WPState) (p : Post) (hp : p ∈ s) : p.id ≠ freshId s := by
  have : p.id ≤ (s.map (fun q => q.id)).foldr max 0 :=
    mem_le_foldr_max _ _ (List.mem_map_of_mem _ hp)
  unfold freshId
  omega

/-- One upsert call from a consistent state yields exactly one post for the
key, preserves id-uniqueness, and does not grow the state when a post for the
key already exists. -/
lemma upsert_spec (s : WPState) (t eid : Str)
    (hstrip : pyStrip eid = eid) (hne : eid ≠ [])
    (hnodup : (s.map (fun p => p.id)).Nodup)
    (hcount : countByExternal s eid ≤ 1) :
    countByExternal (create_or_update_post s t eid).1 eid = 1 ∧
      ((create_or_update_post s t eid).1.map (fun p => p.id)).Nodup ∧
      (countByExternal s eid = 1 →
        (create_or_update_post s t eid).1.length = s.length) := by
  have hemp : (pyStrip eid).isEmpty = false := by
    rw [hstrip]; simpa [List.isEmpty_iff] using hne
  unfold create_or_update_post
  cases hfind : find_post_id_by_external s eid with
  | none =>
    -- create branch
    have hnone : ∀ p ∈ s, (decide (p.external_id = pyStrip eid) : Bool) = false := by
      have := hfind
      unfold find_post_id_by_external at this
      rw [if_neg (by simp [hemp])] at this
      simpa using List.find?_eq_none.1 (Option.map_eq_none.1 this)
    have hzero : countByExternal s eid = 0 := by
      rw [countByExternal_eq_countP]
      refine List.countP_eq_zero.2 ?_
      intro p hp
      simpa [hstrip] using hnone p hp
    refine ⟨?_, ?_, ?_⟩
    · simp only [countByExternal_eq_countP, List.countP_append]
      rw [← countByExternal_eq_countP, hzero]
      simp
    · rw [List.map_append, List.nodup_append]
      refine ⟨hnodup, by simp, ?_⟩
      intro x hx
      simp only [List.map_cons, List.map_nil, List.mem_map] at hx
      rcases hx with ⟨p, hp, rfl⟩
      simp only [List.map_cons, List.map_nil, List.mem_singleton]
      exact fun hcontra => freshId_not_mem s p hp hcontra
    · intro h1
      rw [hzero] at h1
      cases h1
  | some pid =>
    -- update branch
    have hfind2 : s.find? (fun p => p.external_id = pyStrip eid) ≠ none := by
      intro hcontra
      unfold find_post_id_by_external at hfind
      rw [if_neg (by simp [hemp])] at hfind
      rw [hcontra] at hfind
      cases hfind
    obtain ⟨p0, hp0eq⟩ := Option.ne_none_iff_exists'.1 hfind2
    have hp0mem : p0 ∈ s := List.mem_of_find?_eq_some hp0eq
    have hp0ext : p0.external_id = eid := by
      have := List.find?_some hp0eq
      simpa [hstrip] using this
    have hp0id : p0.id = pid := by
      unfold find_post_id_by_external at hfind
      rw [if_neg (by simp [hemp]), hp0eq] at hfind
      simpa using hfind
    have hinv : countByExternal
        (s.map (fun p =>
          if p.id = pid then { p with external_id := eid, title := t } else p)) eid
        = countByExternal s eid := by
      simp only [countByExternal_eq_countP, List.countP_map]
      refine List.countP_congr ?_
      intro p hp
      by_cases hid : p.id = pid
      · have : p = p0 := by
          refine List.inj_on_of_nodup_map hnodup hp hp0mem ?_
          simp [hid, hp0id]
        subst this
        simp [Function.comp, hid, hp0ext]
      · simp [Function.comp, hid]
    have hone : 1 ≤ countByExternal s eid := by
      rw [countByExternal_eq_countP]
      have : 0 < s.countP (fun p => p.external_id = eid) := by
        refine List.countP_pos_iff.2 ⟨p0, hp0mem, ?_⟩
        simp [hp0ext]
      omega
    refine ⟨?_, ?_, ?_⟩
    · rw [hinv]; omega
    · have : ((s.map (fun p =>
          if p.id = pid then { p with external_id := eid, title := t } else p)).map
            (fun p => p.id)) = s.map (fun p => p.id) := by
        rw [List.map_map]
        refine List.map_congr_left ?_
        intro p _
        by_cases hid : p.id = pid <;> simp [Function.comp, hid]
      rw [this]
      exact hnodup
    · intro _
      simp

end WpRest

/-- C2 (amended): for a whitespace-clean, nonempty `external_id` and a remote
state with unique post ids and at most one post for that id, calling
`create_or_update_post` twice in sequence leaves exactly one remote post with
that `external_id`, and the second call updates in place — it does not grow
the post collection. -/
theorem C2_upsert_idempotent (s : WpRest.WPState) (eid t1 t2 : Str)
    (hstrip : pyStrip eid = eid) (hne : eid ≠ [])
    (hnodup : (s.map (fun p => p.id)).Nodup)
    (hcount : WpRest.countByExternal s eid ≤ 1) :
    WpRest.countByExternal
        (WpRest.create_or_update_post (WpRest.create_or_update_post s t1 eid).1 t2 eid).1 eid
      = 1 ∧
    (WpRest.create_or_update_post (WpRest.create_or_update_post s t1 eid).1 t2 eid).1.length
      = (WpRest.create_or_update_post s t1 eid).1.length := by
  obtain ⟨h1, h2, _⟩ := WpRest.upsert_spec s t1 eid hstrip hne hnodup hcount
  obtain ⟨h4, _, h6⟩ := WpRest.upsert_spec (WpRest.create_or_update_post s t1 eid).1 t2 eid
    hstrip hne h2 (by omega)
  exact ⟨h4, h6 h1⟩

theorem C2_upsert_idempotent_witness :
    WpRest.countByExternal
        (WpRest.create_or_update_post
          (WpRest.create_or_update_post [] (("T1").data) (("abc00001").data)).1
          (("T2").data) (("abc00001").data)).1 (("abc00001").data) = 1 ∧
    (WpRest.create_or_update_post
        (WpRest.create_or_update_post [] (("T1").data) (("abc00001").data)).1
        (("T2").data) (("abc00001").data)).1.length
      = (WpRest.create_or_update_post [] (("T1").data) (("abc00001").data)).1.length :=
  C2_upsert_idempotent [] (("abc00001").data) (("T1").data) (("T2").data)
    (by decide) (by decide) (by decide) (by decide)

/-- C2 (counterexample): with the empty `external_id`,
`find_post_id_by_external` always answers `None`, so two upserts from the
empty remote state create two distinct posts whose `external_id` is `""` —
not exactly one — refuting the claim as stated for every record. -/
theorem C2_counterexample :
    WpRest.countByExternal
        (WpRest.create_or_update_post
          (WpRest.create_or_update_post [] (("T1").data) []).1 (("T2").data) []).1 [] = 2 := by
  decide

namespace WpRest

/-- Outcome of one `_req` call: parsed JSON success, a raised
`requests.HTTPError` with its status, or Python's implicit `None` when the
retry loop falls through. -/
inductive ReqResult where
  | success
  | httpError (status : Nat)
  | noResult
deriving Repr, DecidableEq

/-- app/core/wp_rest.py line 29: the statuses the loop treats as retryable. -/
def transient_status (c : Nat) : Bool :=
  c = 429 || c = 500 || c = 502 || c = 503 || c = 504

/-- app/core/wp_rest.py lines 27-34, the body of `_req`'s `for i in range(5)`
loop.  `responses i` is the status of attempt `i`; `remaining` counts the
loop iterations left; the sleep list records each `time.sleep(1.5 * (i + 1))`
in tenths of a second (`15 * (i + 1)`).  `raise_for_status` raises for any
status ≥ 400; otherwise the JSON body is returned.  When the loop exhausts
its range the function falls off the end and returns `None`. -/
def req_attempts (responses : Nat → Nat) : Nat → Nat → List Nat → ReqResult × List Nat
  | _, 0, sleeps => (.noResult, sleeps)
  | i, remaining + 1, sleeps =>
    let c := responses i
    if transient_status c then req_attempts responses (i + 1) remaining (sleeps ++ [15 * (i + 1)])
    else if 400 ≤ c then (.httpError c, sleeps)
    else (.success, sleeps)

/-- `_req` as a function of the response-status sequence. -/
def wp_req (responses : Nat → Nat) : ReqResult × List Nat :=
  req_attempts responses 0 5 []

end WpRest

/-- C3 (amended): a write request whose response status lies in
`{429, 500, 502, 503, 504}` is retried with linear backoff
(1.5s, 3s, 4.5s, 6s, 7.5s) for at most 5 attempts, and when all attempts see
such a status the call returns Python `None` — a silently absent result, not
an error; the first non-retryable status ends the call immediately with no
further sleep, raising `HTTPError` iff it is ≥ 400.  (Statuses such as 501,
although 5xx, are not retried.) -/
theorem C3_transient_retry_behavior (responses : Nat → Nat) :
    ((∀ i, i < 5 → WpRest.transient_status (responses i) = true) →
      WpRest.wp_req responses = (.noResult, [15, 30, 45, 60, 75])) ∧
    (∀ j, j < 5 → (∀ i, i < j → WpRest.transient_status (responses i) = true) →
      WpRest.transient_status (responses j) = false →
      WpRest.wp_req responses =
        ((if 400 ≤ responses j then .httpError (responses j) else .success),
          (List.range j).map (fun i => 15 * (i + 1)))) := by
  constructor
  · intro h
    have h0 := h 0 (by omega)
    have h1 := h 1 (by omega)
    have h2 := h 2 (by omega)
    have h3 := h 3 (by omega)
    have h4 := h 4 (by omega)
    simp [WpRest.wp_req, WpRest.req_attempts, h0, h1, h2, h3, h4]
  · intro j hj hprev hstop
    interval_cases j
    · simp [WpRest.wp_req, WpRest.req_attempts, hstop]
      split <;> rfl
    · have h0 := hprev 0 (by omega)
      simp [WpRest.wp_req, WpRest.req_attempts, h0, hstop, List.range_succ]
      split <;> rfl
    · have h0 := hprev 0 (by omega)
      have h1 := hprev 1 (by omega)
      simp [WpRest.wp_req, WpRest.req_attempts, h0, h1, hstop, List.range_succ]
      split <;> rfl
    · have h0 := hprev 0 (by omega)
      have h1 := hprev 1 (by omega)
      have h2 := hprev 2 (by omega)
      simp [WpRest.wp_req, WpRest.req_attempts, h0, h1, h2, hstop, List.range_succ]
      split <;> rfl
    · have h0 := hprev 0 (by omega)
      have h1 := hprev 1 (by omega)
      have h2 := hprev 2 (by omega)
      have h3 := hprev 3 (by omega)
      simp [WpRest.wp_req, WpRest.req_attempts, h0, h1, h2, h3, hstop, List.range_succ]
      split <;> rfl

theorem C3_transient_retry_behavior_witness :
    WpRest.wp_req (fun _ => 429) = (.noResult, [15, 30, 45, 60, 75]) ∧
      WpRest.wp_req (fun _ => 404) = (.httpError 404, []) := by
  constructor
  · exact (C3_transient_retry_behavior (fun _ => 429)).1 (fun i _ => rfl)
  · have h := (C3_transient_retry_behavior (fun _ => 404)).2 0 (by omega)
      (fun i hi => absurd hi (by omega)) rfl
    simpa using h

/-- C3 (counterexample): five consecutive 503 responses exhaust the retry
loop and `_req` returns `None` — a silently absent result, not a raised
error — and a 501 response (5xx, transient per the claim) is not retried at
all: the call raises immediately with no backoff sleep.  Both refute the
claim as stated. -/
theorem C3_counterexample :
    WpRest.wp_req (fun _ => 503) = (.noResult, [15, 30, 45, 60, 75]) ∧
      WpRest.wp_req (fun _ => 501) = (.httpError 501, []) := by
  constructor <;> rfl

/-- A record matching the regex `xyz` case-insensitively on its maker. -/
def c7rec2 : Filters.FilterRecord :=
  { maker := ("XYZ studio").data, actress := [], genres := [], title := [], cid := [] }

/-- A pattern (regex `qqq`, case-insensitive) that does not match `c7rec2`. -/
def c7patq : Filters.Pattern := fun t => containsSub (lowerStr t) (("qqq").data)

/-- A filter spec whose include-maker list is already nonempty. -/
def c7spec1 : Filters.FilterArgs :=
  { include_maker := [c7pat], exclude_maker := [], include_actress := [], exclude_actress := []
    include_genre := [], exclude_genre := [], include_title := [], exclude_title := []
    include_cid_pre := [], exclude_cid_pre := [] }

theorem C7_filter_monotonicity_witness :
    Filters.passes c7rec2 (Filters.addInclude .maker c7pat c7spec1) = true ∧
      Filters.passes c7rec2 c7spec1 = true :=
  ⟨(Filters.C7_filter_monotonicity c7rec2 c7spec1 .maker c7pat).2 (List.cons_ne_nil _ _) (by rfl),
   (Filters.C7_filter_monotonicity c7rec2 c7spec1 .maker c7patq).1 (by rfl)⟩

/-- Record used for the C6 witness: a clean, nonempty external id. -/
def c6record2 : Str → Option Str :=
  fun f => if f = ("cid").data then some (("abc00001").data) else none

theorem C6_ledger_roundtrip_witness :
    (CsvDedupe.load_skip_cids_file
        (CsvDedupe.append_ledger none c6record2 none) (("cid").data)).contains
      (pyStrip ((c6record2 (("cid").data)).getD [])) = true ∧
    (CsvDedupe.load_skip_cids_file
        (CsvDedupe.append_ledger (some [CsvDedupe.default_ledger_fields]) c6record2 none)
        (("cid").data)).contains
      (pyStrip ((c6record2 (("cid").data)).getD [])) = true :=
  C6_ledger_roundtrip c6record2 [] (by decide)

namespace Pipeline

/-- The per-item stages of `run_pipeline`'s inner loop
(app/core/pipeline.py lines 377-632), in source order. -/
inductive Stage where
  | normalizeStage      -- line 379: `row = _normalize(it)`
  | mirrorStage         -- lines 382-396: image mirroring (when `--mirror-images`)
  | playerSizeStage     -- lines 399-405: player size injection (videos only)
  | dedupCheckStage     -- lines 408-410: CSV skip-set check
  | sanitizeStage       -- lines 413-414: `sanitize_trailer_fields` (videos only)
  | filterEnhanceStage  -- line 416: `_filter_and_enhance` (placeholder probing etc.)
  | cleanFieldsStage    -- lines 421-423: display-field cleaning
  | applyFiltersStage   -- lines 426-429: `apply_filters`
  | buildContentStage   -- lines 432-463: content generation
  | csvSinkStage        -- lines 467-479: CSV buffer + ledger (no WP client)
  | wpPublishStage      -- lines 482-632: WordPress publish path
deriving Repr, DecidableEq

/-- The sequence of stages `run_pipeline` executes for one fetched item
(pipeline.py lines 377-632).  Data-dependent outcomes that do not affect
stage ordering are oracle parameters: `wpInitOk` is whether a WP client is
available for mirroring (lines 383-388), `keptByFilterEnhance` whether
`_filter_and_enhance` returns the row (line 416), `keptByApplyFilters`
whether `apply_filters` keeps it (line 426), `useWp` whether a WP client
drives the sink.  `cid_raw` is the row's cid; the dedup check fires iff the
stripped cid is nonempty and in `skip_cids` (lines 408-410). -/
def processItemTrace (mirror_images wpInitOk is_books : Bool)
    (skip_cids : List Str) (cid_raw : Str)
    (keptByFilterEnhance keptByApplyFilters useWp : Bool) : List Stage :=
  let cid := pyStrip cid_raw
  [Stage.normalizeStage] ++
  (if mirror_images && wpInitOk then [Stage.mirrorStage] else []) ++
  (if !is_books then [Stage.playerSizeStage] else []) ++
  [Stage.dedupCheckStage] ++
  (if !cid.isEmpty && skip_cids.contains cid then []
   else
     (if !is_books then [Stage.sanitizeStage] else []) ++
     [Stage.filterEnhanceStage] ++
     (if !keptByFilterEnhance then []
      else
        [Stage.cleanFieldsStage, Stage.applyFiltersStage] ++
        (if !keptByApplyFilters then []
         else
           [Stage.buildContentStage] ++
           (if useWp then [Stage.wpPublishStage] else [Stage.csvSinkStage]))))

end Pipeline

/-- C1 (amended): for an item whose stripped cid is nonempty and already in
the skip set, the per-item loop short-circuits at the dedup check: exactly
normalization, image mirroring (when enabled and a WP client is available),
and player-size injection (for videos) run before the check, and no stage
after the check runs — no trailer sanitization, no filter/enhance probing, no
content building, and no publishing or CSV sink.  The dedup check is *not* a
pre-filter for image mirroring: with `--mirror-images` enabled, the mirror
stage runs even for a skipped item. -/
theorem C1_dedup_short_circuit (mirror_images wpInitOk is_books : Bool)
    (skip_cids : List Str) (cid_raw : Str) (fe af useWp : Bool)
    (hne : (pyStrip cid_raw).isEmpty = false)
    (hmem : skip_cids.contains (pyStrip cid_raw) = true) :
    Pipeline.processItemTrace mirror_images wpInitOk is_books skip_cids cid_raw fe af useWp =
        [Pipeline.Stage.normalizeStage] ++
        (if mirror_images && wpInitOk then [Pipeline.Stage.mirrorStage] else []) ++
        (if !is_books then [Pipeline.Stage.playerSizeStage] else []) ++
        [Pipeline.Stage.dedupCheckStage] ∧
      (∀ st ∈ Pipeline.processItemTrace mirror_images wpInitOk is_books skip_cids cid_raw
          fe af useWp,
        st ≠ Pipeline.Stage.sanitizeStage ∧ st ≠ Pipeline.Stage.filterEnhanceStage ∧
        st ≠ Pipeline.Stage.buildContentStage ∧ st ≠ Pipeline.Stage.csvSinkStage ∧
        st ≠ Pipeline.Stage.wpPublishStage) ∧
      (mirror_images = true → wpInitOk = true →
        Pipeline.Stage.mirrorStage ∈
          Pipeline.processItemTrace mirror_images wpInitOk is_books skip_cids cid_raw
            fe af useWp) := by
  have htrace : Pipeline.processItemTrace mirror_images wpInitOk is_books skip_cids cid_raw
      fe af useWp =
      [Pipeline.Stage.normalizeStage] ++
      (if mirror_images && wpInitOk then [Pipeline.Stage.mirrorStage] else []) ++
      (if !is_books then [Pipeline.Stage.playerSizeStage] else []) ++
      [Pipeline.Stage.dedupCheckStage] := by
    unfold Pipeline.processItemTrace
    have hm1 : ¬pyStrip cid_raw = [] := by
      intro hc
      rw [hc] at hne
      simp at hne
    have hm2 : pyStrip cid_raw ∈ skip_cids := List.mem_of_elem_eq_true hmem
    simp [hm1, hm2]
  refine ⟨htrace, ?_, ?_⟩
  · intro st hst
    rw [htrace] at hst
    cases hmi : mirror_images && wpInitOk <;> cases hb : is_books <;>
      rw [hmi, hb] at hst <;> simp at hst <;>
      rcases hst with rfl | rfl | rfl | rfl <;> simp
  · intro h1 h2
    rw [htrace]
    simp [h1, h2]

theorem C1_dedup_short_circuit_witness :
    Pipeline.processItemTrace true true false [("abc00001").data] (("abc00001").data)
        true true true =
      [Pipeline.Stage.normalizeStage, Pipeline.Stage.mirrorStage,
       Pipeline.Stage.playerSizeStage, Pipeline.Stage.dedupCheckStage] := by
  have h := C1_dedup_short_circuit true true false [("abc00001").data] (("abc00001").data)
    true true true (by decide) (by decide)
  simpa using h.1

/-- C1 (counterexample): with `--mirror-images` enabled and a WP client
available, an item whose cid is already in the skip set still goes through
the image-mirroring stage, and the dedup check only runs afterwards — the
trace is normalize, mirror, player-size, dedup-check.  This refutes the
claim that the dedup check executes before image mirroring and that a
skipped item never triggers it. -/
theorem C1_counterexample :
    Pipeline.processItemTrace true true false [("abc00001").data] (("abc00001").data)
        true true true =
      [Pipeline.Stage.normalizeStage, Pipeline.Stage.mirrorStage,
       Pipeline.Stage.playerSizeStage, Pipeline.Stage.dedupCheckStage] ∧
      Pipeline.Stage.mirrorStage ∈
        Pipeline.processItemTrace true true false [("abc00001").data] (("abc00001").data)
          true true true := by
  constructor
  · decide
  · decide

namespace Fanza

/-- Case-insensitive character comparison (the effect of `re.I`). -/
def ciEq (c d : Char) : Bool := lowerChar c = lowerChar d

/-- Strip `pat` from the front of `r`, comparing case-insensitively. -/
def stripCi : Str → Str → Option Str
  | [], r => some r
  | _ :: _, [] => none
  | p :: ps, c :: cs => if ciEq p c then stripCi ps cs else none

/-- Strip one of the reversed extensions `jpg|jpeg|png|webp` (with the
preceding dot) from the front of a reversed basename: the `\.(ext)$` tail of
the key-normalisation regexes, parsed from the end of the string. -/
def stripExtRev (r : Str) : Option Str :=
  (stripCi (("gpj.").data) r) <|> (stripCi (("gepj.").data) r) <|>
    (stripCi (("gnp.").data) r) <|> (stripCi (("pbew.").data) r)

/-- One `re.sub(marker + r"(\d+)\.(jpg|jpeg|png|webp)$", r"\1.jpg", b, re.I)`
(the three key-building substitutions of `_extract_sample_images`,
app/providers/fanza.py lines 364-366, with `marker` one of `js-`, `jp-`,
`-`).  Because the pattern is anchored at the end and the digit run admits no
marker characters, the regex matches iff the string ends with
`marker ++ digits ++ "." ++ ext`, and then the match is unique; the parse
therefore proceeds from the reversed string.  On a match the suffix is
replaced by `digits ++ ".jpg"`. -/
def subSuffixRule (marker : Str) (b : Str) : Str :=
  match stripExtRev b.reverse with
  | none => b
  | some r1 =>
    let ds := r1.takeWhile (fun c => c.isDigit)
    let r2 := r1.dropWhile (fun c => c.isDigit)
    if ds.isEmpty then b
    else
      match stripCi marker.reverse r2 with
      | none => b
      | some pre => pre.reverse ++ ds.reverse ++ ((".jpg").data)

/-- `_key` of `_extract_sample_images` (fanza.py lines 362-367): take the
basename (`u.rsplit("/",1)[-1]`) and cascade the `js-`, `jp-`, and bare `-`
suffix substitutions. -/
def sample_key (u : Str) : Str :=
  let b := (u.reverse.takeWhile (fun c => c ≠ '/')).reverse
  subSuffixRule (("-").data)
    (subSuffixRule (("jp-").data) (subSuffixRule (("js-").data) b))

/-- `_score` of `_extract_sample_images` (fanza.py lines 358-360). -/
def sample_score (u : Str) : Nat :=
  (if endsWithB (lowerStr u) (("pl.jpg").data) then 2 else 0) +
  (if containsSub (lowerStr u) (("jp-").data) then 1 else 0)

/-- `_is_large_hint` (fanza.py lines 279-281). -/
def is_large_hint (u : Str) : Bool :=
  containsSub (lowerStr u) (("jp-").data) || endsWithB (lowerStr u) (("pl.jpg").data) ||
    containsSub (lowerStr u) (("sample_l").data)

/-- The `seen`/`uniq` loop of `_extract_sample_images` (fanza.py lines
352-356): keep nonempty URLs at their first occurrence. -/
def uniqPreserve : List Str → List Str → List Str
  | [], _ => []
  | u :: us, seen =>
    if !u.isEmpty && !seen.contains u then u :: uniqPreserve us (u :: seen)
    else uniqPreserve us seen

/-- One step of the `by_key` loop (fanza.py lines 369-374): insert `(k, v)`
into the insertion-ordered association list, replacing the held value only on
a strictly higher score. -/
def byKeyInsert : List (Str × Str) → Str → Str → List (Str × Str)
  | [], k, v => [(k, v)]
  | (k0, v0) :: rest, k, v =>
    if k0 = k then
      (if sample_score v > sample_score v0 then (k0, v) else (k0, v0)) :: rest
    else (k0, v0) :: byKeyInsert rest k v

/-- The `by_key` dictionary after the loop (fanza.py lines 369-374). -/
def byKeyMap (urls : List Str) : List (Str × Str) :=
  urls.foldl (fun m u => byKeyInsert m (sample_key u) u) []

/-- The comparison key of `out.sort(key=lambda x: (not _is_large_hint(x), x))`
(fanza.py line 377): large-hint URLs first (`False < True`), ties broken by
code-point-lexicographic string order. -/
def strLe : Str → Str → Bool
  | [], _ => true
  | _ :: _, [] => false
  | c :: cs, d :: ds => if c = d then strLe cs ds else decide (c < d)

def sortLe (a b : Str) : Bool :=
  let ra : Nat := if is_large_hint a then 0 else 1
  let rb : Nat := if is_large_hint b then 0 else 1
  decide (ra < rb) || (decide (ra = rb) && strLe a b)

/-- Python's stable ascending `list.sort` modelled as insertion sort that
places each later element after existing equal elements.  After exact-duplicate removal the
comparison relation is antisymmetric on the values, so any correct sort gives
this order. -/
def pyInsert (a : Str) : List Str → List Str
  | [] => [a]
  | b :: bs => if sortLe b a then b :: pyInsert a bs else a :: b :: bs

def pySort (l : List Str) : List Str := l.foldl (fun acc a => pyInsert a acc) []

/-- `dedupe_by_identity` — the deduplication/ordering stage of
`_extract_sample_images` (fanza.py lines 352-378): first-occurrence
uniqueness, collapse by inferred base filename keeping the highest-scoring
variant, then the large-hint/lexicographic sort of line 377. -/
def dedupe_by_identity (urls : List Str) : List Str :=
  pySort ((byKeyMap (uniqPreserve urls [])).map (fun kv => kv.2))

end Fanza

/-- C5 (counterexample): two URLs with distinct identity keys and no large
hints survive deduplication, but the output is sorted lexicographically
rather than preserving the relative order of first occurrence: `z-1` precedes
`b-2` in the input and follows it in the output.  This refutes the claimed
first-occurrence order. -/
theorem C5_counterexample :
    Fanza.dedupe_by_identity [("https://a/z-1.jpg").data, ("https://a/b-2.jpg").data] =
      [("https://a/b-2.jpg").data, ("https://a/z-1.jpg").data] ∧
      ("https://a/z-1.jpg").data ≠ ("https://a/b-2.jpg").data := by
  constructor
  · decide
  · decide

namespace Fanza

lemma isDigit_toNat {c : Char} (h : c.isDigit = true) : 48 ≤ c.toNat ∧ c.toNat ≤ 57 := by
  simp [Char.isDigit] at h
  exact ⟨h.1, h.2⟩

lemma ne_of_isDigit {c x : Char} (h : c.isDigit = true)
    (hx : x.toNat < 48 ∨ 57 < x.toNat) : c ≠ x := by
  intro hc
  subst hc
  rcases isDigit_toNat h with ⟨h1, h2⟩
  omega

lemma lowerChar_of_isDigit {c : Char} (h : c.isDigit = true) : lowerChar c = c := by
  rcases isDigit_toNat h with ⟨h1, h2⟩
  have hA : ¬('A' ≤ c) := by
    intro hle
    have h3 := (Char.le_def).1 hle
    have h3' : UInt32.ofNat 65 ≤ c.val := by exact_mod_cast h3
    have h4 : (65 : Nat) ≤ c.val.toNat := UInt32.le_toNat_of_le (by norm_num [UInt32.size]) h3'
    have h5 : c.toNat = c.val.toNat := rfl
    omega
  simp [lowerChar, hA]

lemma ciEq_refl (c : Char) : ciEq c c = true := by simp [ciEq]

lemma stripCi_append (p rest : Str) : stripCi p (p ++ rest) = some rest := by
  induction p with
  | nil => rfl
  | cons c cs ih => simp [stripCi, ciEq_refl, ih]

lemma takeWhile_append_all {p : Char → Bool} {xs : Str} (ys : Str)
    (h : ∀ c ∈ xs, p c = true) : (xs ++ ys).takeWhile p = xs ++ ys.takeWhile p := by
  induction xs with
  | nil => rfl
  | cons c cs ih =>
    have hc := h c (by simp)
    simp only [List.cons_append, List.takeWhile_cons, hc, if_true]
    rw [ih (fun d hd => h d (by simp [hd]))]

lemma dropWhile_append_all {p : Char → Bool} {xs : Str} (ys : Str)
    (h : ∀ c ∈ xs, p c = true) : (xs ++ ys).dropWhile p = ys.dropWhile p := by
  induction xs with
  | nil => rfl
  | cons c cs ih =>
    have hc := h c (by simp)
    simp only [List.cons_append, List.dropWhile_cons, hc, if_true]
    exact ih (fun d hd => h d (by simp [hd]))

lemma startsWithB_self_append (p t : Str) : startsWithB p (p ++ t) = true := by
  induction p with
  | nil => rfl
  | cons c cs ih => simp [startsWithB, ih]

lemma startsWithB_append_ext {p s : Str} (t : Str) (h : startsWithB p s = true) :
    startsWithB p (s ++ t) = true := by
  induction p generalizing s with
  | nil => rfl
  | cons c cs ih =>
    cases s with
    | nil => simp [startsWithB] at h
    | cons d ds =>
      simp only [startsWithB, Bool.and_eq_true] at h
      simp only [List.cons_append, startsWithB, Bool.and_eq_true]
      exact ⟨h.1, ih h.2⟩

lemma containsSub_append_mid (a p b : Str) : containsSub (a ++ (p ++ b)) p = true := by
  induction a with
  | nil =>
    rw [List.nil_append, containsSub.eq_def]
    simp [startsWithB_self_append]
  | cons c cs ih =>
    rw [List.cons_append, containsSub.eq_def]
    simp [ih]

lemma containsSub_append_left_ext {s p : Str} (t : Str) (h : containsSub s p = true) :
    containsSub (s ++ t) p = true := by
  induction s with
  | nil =>
    rw [containsSub.eq_def] at h
    simp only [Bool.or_eq_true] at h
    rcases h with h | h
    · cases p with
      | nil => rw [containsSub.eq_def]; simp [startsWithB]
      | cons c cs => simp [startsWithB] at h
    · simp at h
  | cons c cs ih =>
    rw [containsSub.eq_def] at h
    simp only [Bool.or_eq_true] at h
    rw [List.cons_append, containsSub.eq_def]
    simp only [Bool.or_eq_true]
    rcases h with h | h
    · exact Or.inl (startsWithB_append_ext t h)
    · exact Or.inr (ih h)

lemma containsSub_append_right_ext {t p : Str} (s : Str) (h : containsSub t p = true) :
    containsSub (s ++ t) p = true := by
  induction s with
  | nil => simpa using h
  | cons c cs ih =>
    rw [List.cons_append, containsSub.eq_def]
    simp [ih]

lemma stripCi3_decomp {a b c : Char} {r rest : Str}
    (h : stripCi [a, b, c] r = some rest) :
    ∃ c1 c2 c3, r = c1 :: c2 :: c3 :: rest ∧
      ciEq a c1 = true ∧ ciEq b c2 = true ∧ ciEq c c3 = true := by
  match r with
  | [] => simp [stripCi] at h
  | [c1] =>
    rw [stripCi] at h
    split at h
    · simp [stripCi] at h
    · cases h
  | [c1, c2] =>
    rw [stripCi] at h
    split at h
    · rw [stripCi] at h
      split at h
      · simp [stripCi] at h
      · cases h
    · cases h
  | c1 :: c2 :: c3 :: r' =>
    rw [stripCi] at h
    split at h
    case isTrue h1 =>
      rw [stripCi] at h
      split at h
      case isTrue h2 =>
        rw [stripCi] at h
        split at h
        case isTrue h3 =>
          simp only [stripCi, Option.some_inj] at h
          exact ⟨c1, c2, c3, by rw [h], h1, h2, h3⟩
        case isFalse => cases h
      case isFalse => cases h
    case isFalse => cases h

end Fanza

namespace Fanza

lemma reverse_ext : ((".jpg").data).reverse = (("gpj.").data) := rfl

lemma takeWhile_digits_prefix (ds rest : Str) (hdig : ∀ c ∈ ds, c.isDigit = true)
    (hstop : rest.head?.all (fun c => !c.isDigit)) :
    (ds.reverse ++ rest).takeWhile (fun c => c.isDigit) = ds.reverse := by
  rw [takeWhile_append_all rest (fun c hc => hdig c (List.mem_reverse.1 hc))]
  cases rest with
  | nil => simp
  | cons c cs =>
    simp only [Option.all_some, List.head?_cons, Bool.not_eq_true'] at hstop
    simp [List.takeWhile_cons, hstop]

lemma dropWhile_digits_prefix (ds rest : Str) (hdig : ∀ c ∈ ds, c.isDigit = true)
    (hstop : rest.head?.all (fun c => !c.isDigit)) :
    (ds.reverse ++ rest).dropWhile (fun c => c.isDigit) = rest := by
  rw [dropWhile_append_all rest (fun c hc => hdig c (List.mem_reverse.1 hc))]
  cases rest with
  | nil => simp
  | cons c cs =>
    simp only [Option.all_some, List.head?_cons, Bool.not_eq_true'] at hstop
    simp [List.dropWhile_cons, hstop]

lemma reverse_isEmpty_of_ne {ds : Str} (hds : ds ≠ []) : ds.reverse.isEmpty = false := by
  cases ds with
  | nil => exact absurd rfl hds
  | cons a as => simp

/-- The `marker-(\d+)\.(jpg...)$ → \1.jpg` substitution fires on
`post ++ marker ++ digits ++ ".jpg"` for a marker ending in `-`. -/
lemma subSuffixRule_hit (m0 post ds : Str) (hds : ds ≠ [])
    (hdig : ∀ c ∈ ds, c.isDigit = true) :
    subSuffixRule (m0 ++ [('-' : Char)])
        (post ++ ((m0 ++ [('-' : Char)]) ++ (ds ++ ((".jpg").data))))
      = (post ++ ds) ++ ((".jpg").data) := by
  have hrev : (post ++ ((m0 ++ [('-' : Char)]) ++ (ds ++ ((".jpg").data)))).reverse
      = (("gpj.").data) ++ (ds.reverse ++ (('-' :: m0.reverse) ++ post.reverse)) := by
    simp [List.reverse_append]
  have hstrip : stripExtRev
      ((("gpj.").data) ++ (ds.reverse ++ (('-' :: m0.reverse) ++ post.reverse)))
      = some (ds.reverse ++ (('-' :: m0.reverse) ++ post.reverse)) := by
    unfold stripExtRev
    rw [stripCi_append]
    rfl
  have htake := takeWhile_digits_prefix ds (('-' :: m0.reverse) ++ post.reverse) hdig (by simp)
  have hdrop := dropWhile_digits_prefix ds (('-' :: m0.reverse) ++ post.reverse) hdig (by simp)
  have hmrev : (m0 ++ [('-' : Char)]).reverse = '-' :: m0.reverse := by
    simp
  unfold subSuffixRule
  rw [hrev, hstrip]
  simp only [htake, hdrop, reverse_isEmpty_of_ne hds, Bool.false_eq_true, if_false, hmrev]
  rw [show (('-' :: m0.reverse) ++ post.reverse) = (('-' :: m0.reverse)) ++ post.reverse from rfl]
  rw [stripCi_append]
  simp

/-- The `js-` substitution does not fire on a `jp-` suffixed name. -/
lemma subSuffixRule_miss_js (post ds : Str) (hds : ds ≠ [])
    (hdig : ∀ c ∈ ds, c.isDigit = true) :
    subSuffixRule (("js-").data) (post ++ ((("jp-").data) ++ (ds ++ ((".jpg").data))))
      = post ++ ((("jp-").data) ++ (ds ++ ((".jpg").data))) := by
  have hrev : (post ++ ((("jp-").data) ++ (ds ++ ((".jpg").data)))).reverse
      = (("gpj.").data) ++ (ds.reverse ++ (('-' :: ('p' :: ('j' :: []))) ++ post.reverse)) := by
    simp [List.reverse_append]
  have hstrip : stripExtRev
      ((("gpj.").data) ++ (ds.reverse ++ (('-' :: ('p' :: ('j' :: []))) ++ post.reverse)))
      = some (ds.reverse ++ (('-' :: ('p' :: ('j' :: []))) ++ post.reverse)) := by
    unfold stripExtRev
    rw [stripCi_append]
    rfl
  have htake := takeWhile_digits_prefix ds ((('-' :: ('p' :: ('j' :: [])))) ++ post.reverse)
    hdig (by simp)
  have hdrop := dropWhile_digits_prefix ds ((('-' :: ('p' :: ('j' :: [])))) ++ post.reverse)
    hdig (by simp)
  unfold subSuffixRule
  rw [hrev, hstrip]
  simp only [htake, hdrop, reverse_isEmpty_of_ne hds, Bool.false_eq_true, if_false]
  rw [show stripCi ((("js-").data).reverse)
      ((('-' :: ('p' :: ('j' :: [])))) ++ post.reverse) = none from by
    simp [stripCi, ciEq, lowerChar]]

/-- With no case-insensitive `jp-` occurring in `post`, the `jp-`
substitution leaves `post ++ digits ++ ".jpg"` unchanged. -/
lemma subSuffixRule_jp_noop (post ds : Str) (hds : ds ≠ [])
    (hdig : ∀ c ∈ ds, c.isDigit = true)
    (hnojp : containsSub (lowerStr post) (("jp-").data) = false) :
    subSuffixRule (("jp-").data) ((post ++ ds) ++ ((".jpg").data))
      = (post ++ ds) ++ ((".jpg").data) := by
  have hrev : ((post ++ ds) ++ ((".jpg").data)).reverse
      = (("gpj.").data) ++ (ds.reverse ++ post.reverse) := by
    simp [List.reverse_append]
  have hstrip : stripExtRev ((("gpj.").data) ++ (ds.reverse ++ post.reverse))
      = some (ds.reverse ++ post.reverse) := by
    unfold stripExtRev
    rw [stripCi_append]
    rfl
  have htake : (ds.reverse ++ post.reverse).takeWhile (fun c => c.isDigit)
      = ds.reverse ++ post.reverse.takeWhile (fun c => c.isDigit) :=
    takeWhile_append_all _ (fun c hc => hdig c (List.mem_reverse.1 hc))
  have hdrop : (ds.reverse ++ post.reverse).dropWhile (fun c => c.isDigit)
      = post.reverse.dropWhile (fun c => c.isDigit) :=
    dropWhile_append_all _ (fun c hc => hdig c (List.mem_reverse.1 hc))
  have hne2 : (ds.reverse ++ post.reverse.takeWhile (fun c => c.isDigit)).isEmpty = false := by
    cases ds with
    | nil => exact absurd rfl hds
    | cons a as => simp
  unfold subSuffixRule
  rw [hrev, hstrip]
  simp only [htake, hdrop, hne2, Bool.false_eq_true, if_false]
  cases hsc : stripCi ((("jp-").data).reverse)
      (post.reverse.dropWhile (fun c => c.isDigit)) with
  | none => rfl
  | some rest =>
    exfalso
    have hdec := @stripCi3_decomp '-' 'p' 'j'
      (post.reverse.dropWhile (fun c => c.isDigit)) rest (by exact hsc)
    rcases hdec with ⟨c1, c2, c3, hr, h1, h2, h3⟩
    have hc1 : lowerChar c1 = '-' := by
      have := h1
      simp only [ciEq, decide_eq_true_eq] at this
      rw [← this]
      rfl
    have hc2 : lowerChar c2 = 'p' := by
      have := h2
      simp only [ciEq, decide_eq_true_eq] at this
      rw [← this]
      rfl
    have hc3 : lowerChar c3 = 'j' := by
      have := h3
      simp only [ciEq, decide_eq_true_eq] at this
      rw [← this]
      rfl
    set tw := post.reverse.takeWhile (fun c => c.isDigit) with htw
    have hsplit : post.reverse = tw ++ (c1 :: c2 :: c3 :: rest) := by
      rw [htw, ← hr]
      exact (List.takeWhile_append_dropWhile (p := fun c => c.isDigit)
        (l := post.reverse)).symm
    have hpost : post = (rest.reverse ++ ([c3, c2, c1])) ++ tw.reverse := by
      have h5 := congrArg List.reverse hsplit
      rw [List.reverse_reverse] at h5
      rw [h5]
      simp
    have hply : lowerStr post = lowerStr rest.reverse ++ ((("jp-").data) ++ lowerStr tw.reverse) := by
      rw [hpost]
      simp [lowerStr, hc1, hc2, hc3]
    have hcontra : containsSub (lowerStr post) (("jp-").data) = true := by
      rw [hply]
      exact containsSub_append_mid _ _ _
    rw [hcontra] at hnojp
    cases hnojp

end Fanza

namespace Fanza

lemma basename_append (pre tail : Str) (htail : ∀ c ∈ tail, (decide (c ≠ '/')) = true) :
    ((pre ++ tail).reverse.takeWhile (fun c => c ≠ '/')).reverse
      = ((pre.reverse.takeWhile (fun c => c ≠ '/')).reverse) ++ tail := by
  rw [List.reverse_append]
  rw [takeWhile_append_all _ (fun c hc => htail c (List.mem_reverse.1 hc))]
  simp

lemma tail_chars_ok_js (ds : Str) (hdig : ∀ c ∈ ds, c.isDigit = true) :
    ∀ c ∈ (("js-").data) ++ (ds ++ ((".jpg").data)), (decide (c ≠ '/')) = true := by
  intro c hc
  simp only [List.mem_append, List.mem_cons, List.not_mem_nil, or_false] at hc
  rcases hc with hc | hc | hc
  · rcases hc with rfl | rfl | rfl <;> decide
  · exact decide_eq_true (ne_of_isDigit (hdig c hc) (by decide))
  · rcases hc with rfl | rfl | rfl | rfl <;> decide

lemma tail_chars_ok_jp (ds : Str) (hdig : ∀ c ∈ ds, c.isDigit = true) :
    ∀ c ∈ (("jp-").data) ++ (ds ++ ((".jpg").data)), (decide (c ≠ '/')) = true := by
  intro c hc
  simp only [List.mem_append, List.mem_cons, List.not_mem_nil, or_false] at hc
  rcases hc with hc | hc | hc
  · rcases hc with rfl | rfl | rfl <;> decide
  · exact decide_eq_true (ne_of_isDigit (hdig c hc) (by decide))
  · rcases hc with rfl | rfl | rfl | rfl <;> decide

lemma lowerStr_reverse (s : Str) : (lowerStr s).reverse = lowerStr s.reverse := by
  simp [lowerStr, List.map_reverse]

lemma endsWith_pl_false (x ds : Str) (hds : ds ≠ []) (hdig : ∀ c ∈ ds, c.isDigit = true) :
    endsWithB (lowerStr (x ++ (ds ++ ((".jpg").data)))) (("pl.jpg").data) = false := by
  obtain ⟨d, ds2, hds2⟩ : ∃ d ds2, ds.reverse = d :: ds2 := by
    cases hrev : ds.reverse with
    | nil =>
      exfalso
      apply hds
      have := congrArg List.reverse hrev
      simpa using this
    | cons d ds2 => exact ⟨d, ds2, rfl⟩
  have hd : d ∈ ds := List.mem_reverse.1 (by rw [hds2]; simp)
  have hld : lowerChar d = d := lowerChar_of_isDigit (hdig d hd)
  have hdl : decide (('l' : Char) = d) = false :=
    decide_eq_false (fun h => absurd h.symm (ne_of_isDigit (hdig d hd) (by decide)))
  unfold endsWithB
  rw [lowerStr_reverse]
  have hsh : (x ++ (ds ++ ((".jpg").data))).reverse
      = (("gpj.").data) ++ (d :: (ds2 ++ x.reverse)) := by
    simp [List.reverse_append, hds2]
  rw [hsh]
  simp [lowerStr, startsWithB, hld, hdl]

lemma contains_jp_of_mid (x y : Str) :
    containsSub (lowerStr (x ++ ((("jp-").data) ++ y))) (("jp-").data) = true := by
  have h1 : lowerStr (x ++ ((("jp-").data) ++ y))
      = lowerStr x ++ ((("jp-").data) ++ lowerStr y) := by
    simp [lowerStr]
    refine ⟨?_, ?_, ?_⟩ <;> decide
  rw [h1]
  exact containsSub_append_mid _ _ _

lemma sample_score_small (pre ds : Str) (hds : ds ≠ [])
    (hdig : ∀ c ∈ ds, c.isDigit = true)
    (hjpS : containsSub (lowerStr (pre ++ ((("js-").data) ++ (ds ++ ((".jpg").data)))))
      (("jp-").data) = false) :
    sample_score (pre ++ ((("js-").data) ++ (ds ++ ((".jpg").data)))) = 0 := by
  have hpl : endsWithB (lowerStr (pre ++ ((("js-").data) ++ (ds ++ ((".jpg").data)))))
      (("pl.jpg").data) = false := by
    have := endsWith_pl_false (pre ++ (("js-").data)) ds hds hdig
    simpa [List.append_assoc] using this
  unfold sample_score
  rw [hpl, hjpS]
  simp

lemma sample_score_large (pre ds : Str) (hds : ds ≠ [])
    (hdig : ∀ c ∈ ds, c.isDigit = true) :
    sample_score (pre ++ ((("jp-").data) ++ (ds ++ ((".jpg").data)))) = 1 := by
  have hpl : endsWithB (lowerStr (pre ++ ((("jp-").data) ++ (ds ++ ((".jpg").data)))))
      (("pl.jpg").data) = false := by
    have := endsWith_pl_false (pre ++ (("jp-").data)) ds hds hdig
    simpa [List.append_assoc] using this
  have hjp := contains_jp_of_mid pre (ds ++ ((".jpg").data))
  unfold sample_score
  rw [hpl, hjp]
  simp

end Fanza

namespace Fanza

/-- `post` is the basename of `pre`. -/
def basenameOf (pre : Str) : Str := (pre.reverse.takeWhile (fun c => c ≠ '/')).reverse

lemma pre_eq_dropPart_append_basename (pre : Str) :
    pre = (pre.reverse.dropWhile (fun c => c ≠ '/')).reverse ++ basenameOf pre := by
  have h1 : pre.reverse = pre.reverse.takeWhile (fun c => c ≠ '/') ++
      pre.reverse.dropWhile (fun c => c ≠ '/') :=
    (List.takeWhile_append_dropWhile (p := fun c => c ≠ '/') (l := pre.reverse)).symm
  have h2 := congrArg List.reverse h1
  rw [List.reverse_reverse] at h2
  conv_lhs => rw [h2]
  rw [List.reverse_append]
  rfl

lemma nojp_pre_of_nojp_small (pre ds : Str)
    (hjpS : containsSub (lowerStr (pre ++ ((("js-").data) ++ (ds ++ ((".jpg").data)))))
      (("jp-").data) = false) :
    containsSub (lowerStr pre) (("jp-").data) = false := by
  cases hc : containsSub (lowerStr pre) (("jp-").data) with
  | false => rfl
  | true =>
    exfalso
    have h1 : lowerStr (pre ++ ((("js-").data) ++ (ds ++ ((".jpg").data))))
        = lowerStr pre ++ lowerStr ((("js-").data) ++ (ds ++ ((".jpg").data))) := by
      simp [lowerStr]
    rw [h1, containsSub_append_left_ext _ hc] at hjpS
    cases hjpS

lemma nojp_basename_of_nojp_pre (pre : Str)
    (hpre : containsSub (lowerStr pre) (("jp-").data) = false) :
    containsSub (lowerStr (basenameOf pre)) (("jp-").data) = false := by
  cases hc : containsSub (lowerStr (basenameOf pre)) (("jp-").data) with
  | false => rfl
  | true =>
    exfalso
    have h1 := pre_eq_dropPart_append_basename pre
    have h2 : lowerStr pre = lowerStr ((pre.reverse.dropWhile (fun c => c ≠ '/')).reverse)
        ++ lowerStr (basenameOf pre) := by
      conv_lhs => rw [h1]
      simp [lowerStr]
    rw [h2, containsSub_append_right_ext _ hc] at hpre
    cases hpre

lemma sample_key_small (pre ds : Str) (hds : ds ≠ [])
    (hdig : ∀ c ∈ ds, c.isDigit = true)
    (hjpS : containsSub (lowerStr (pre ++ ((("js-").data) ++ (ds ++ ((".jpg").data)))))
      (("jp-").data) = false) :
    sample_key (pre ++ ((("js-").data) ++ (ds ++ ((".jpg").data))))
      = subSuffixRule (("-").data) ((basenameOf pre ++ ds) ++ ((".jpg").data)) := by
  have hnojp := nojp_basename_of_nojp_pre pre (nojp_pre_of_nojp_small pre ds hjpS)
  unfold sample_key
  rw [basename_append pre _ (tail_chars_ok_js ds hdig)]
  rw [show ((pre.reverse.takeWhile (fun c => c ≠ '/')).reverse) = basenameOf pre from rfl]
  show subSuffixRule (("-").data)
      (subSuffixRule (("jp-").data)
        (subSuffixRule (("js-").data)
          (basenameOf pre ++ ((("js-").data) ++ (ds ++ ((".jpg").data)))))) = _
  rw [show ((("js-").data) : Str) = (("js").data) ++ [('-' : Char)] from rfl]
  rw [subSuffixRule_hit (("js").data) (basenameOf pre) ds hds hdig]
  rw [subSuffixRule_jp_noop (basenameOf pre) ds hds hdig hnojp]

lemma sample_key_large (pre ds : Str) (hds : ds ≠ [])
    (hdig : ∀ c ∈ ds, c.isDigit = true) :
    sample_key (pre ++ ((("jp-").data) ++ (ds ++ ((".jpg").data))))
      = subSuffixRule (("-").data) ((basenameOf pre ++ ds) ++ ((".jpg").data)) := by
  unfold sample_key
  rw [basename_append pre _ (tail_chars_ok_jp ds hdig)]
  rw [show ((pre.reverse.takeWhile (fun c => c ≠ '/')).reverse) = basenameOf pre from rfl]
  show subSuffixRule (("-").data)
      (subSuffixRule (("jp-").data)
        (subSuffixRule (("js-").data)
          (basenameOf pre ++ ((("jp-").data) ++ (ds ++ ((".jpg").data)))))) = _
  rw [subSuffixRule_miss_js (basenameOf pre) ds hds hdig]
  rw [show ((("jp-").data) : Str) = (("jp").data) ++ [('-' : Char)] from rfl]
  rw [subSuffixRule_hit (("jp").data) (basenameOf pre) ds hds hdig]

end Fanza

namespace Fanza

lemma strLe_total (a : Str) : ∀ b : Str, strLe a b = true ∨ strLe b a = true := by
  induction a with
  | nil => intro b; left; rfl
  | cons c cs ih =>
    intro b
    cases b with
    | nil => right; rfl
    | cons d ds =>
      by_cases h : c = d
      · subst h
        rcases ih ds with h2 | h2
        · left; simp [strLe, h2]
        · right; simp [strLe, h2]
      · have hdc : ¬(d = c) := fun hh => h hh.symm
        rcases lt_trichotomy c d with hlt | heq | hgt
        · left; simp [strLe, h, hlt]
        · exact absurd heq h
        · right; simp [strLe, hdc, hgt]

lemma strLe_trans : ∀ {a b c : Str}, strLe a b = true → strLe b c = true → strLe a c = true := by
  intro a
  induction a with
  | nil => intro b c _ _; rfl
  | cons x xs ih =>
    intro b c hab hbc
    cases b with
    | nil => simp [strLe] at hab
    | cons y ys =>
      cases c with
      | nil => simp [strLe] at hbc
      | cons z zs =>
        simp only [strLe] at hab hbc ⊢
        by_cases hxy : x = y
        · subst hxy
          by_cases hyz : x = z
          · subst hyz
            simp only [if_pos rfl] at hab hbc ⊢
            exact ih hab hbc
          · simp only [if_pos rfl] at hab
            simp only [if_neg hyz] at hbc ⊢
            exact hbc
        · by_cases hyz : y = z
          · subst hyz
            simp only [if_neg hxy] at hab ⊢
            exact hab
          · simp only [if_neg hxy] at hab
            simp only [if_neg hyz] at hbc
            have h1 : x < y := by simpa using hab
            have h2 : y < z := by simpa using hbc
            have hxz : x ≠ z := ne_of_lt (lt_trans h1 h2)
            simp [if_neg hxz, lt_trans h1 h2]

lemma sortLe_total (a b : Str) : sortLe a b = true ∨ sortLe b a = true := by
  unfold sortLe
  by_cases ha : is_large_hint a <;> by_cases hb : is_large_hint b <;>
    simp [ha, hb] <;> exact strLe_total a b

lemma sortLe_trans : ∀ {a b c : Str},
    sortLe a b = true → sortLe b c = true → sortLe a c = true := by
  intro a b c hab hbc
  unfold sortLe at hab hbc ⊢
  by_cases ha : is_large_hint a <;> by_cases hb : is_large_hint b <;>
    by_cases hc : is_large_hint c <;> simp_all <;>
    exact strLe_trans hab hbc

lemma mem_pyInsert (a x : Str) (l : List Str) :
    x ∈ pyInsert a l ↔ x = a ∨ x ∈ l := by
  induction l with
  | nil => simp [pyInsert]
  | cons b bs ih =>
    by_cases hba : sortLe b a = true
    · rw [pyInsert, if_pos hba]
      simp only [List.mem_cons, ih]
      tauto
    · rw [pyInsert, if_neg hba]
      simp only [List.mem_cons]

lemma pyInsert_pairwise (a : Str) (l : List Str)
    (h : l.Pairwise (fun x y => sortLe x y = true)) :
    (pyInsert a l).Pairwise (fun x y => sortLe x y = true) := by
  induction l with
  | nil => simp [pyInsert]
  | cons b bs ih =>
    rcases List.pairwise_cons.1 h with ⟨hb, hbs⟩
    by_cases hba : sortLe b a = true
    · rw [pyInsert, if_pos hba]
      refine List.pairwise_cons.2 ⟨?_, ih hbs⟩
      intro x hx
      rcases (mem_pyInsert a x bs).1 hx with rfl | hx2
      · exact hba
      · exact hb x hx2
    · rw [pyInsert, if_neg hba]
      have hab : sortLe a b = true := by
        rcases sortLe_total a b with h2 | h2
        · exact h2
        · exact absurd h2 hba
      refine List.pairwise_cons.2 ⟨?_, h⟩
      intro x hx
      rcases List.mem_cons.1 hx with rfl | hx2
      · exact hab
      · exact sortLe_trans hab (hb x hx2)

lemma pySort_aux_pairwise (l : List Str) :
    ∀ acc : List Str, acc.Pairwise (fun x y => sortLe x y = true) →
      (l.foldl (fun acc a => pyInsert a acc) acc).Pairwise (fun x y => sortLe x y = true) := by
  induction l with
  | nil => intro acc h; simpa using h
  | cons a as ih =>
    intro acc h
    simp only [List.foldl_cons]
    exact ih _ (pyInsert_pairwise a acc h)

lemma pySort_pairwise (l : List Str) :
    (pySort l).Pairwise (fun x y => sortLe x y = true) :=
  pySort_aux_pairwise l [] (by simp)

end Fanza

namespace Fanza

lemma isEmpty_false_of_ne {l : Str} (h : l ≠ []) : l.isEmpty = false := by
  cases hl : l.isEmpty
  · rfl
  · exact absurd (List.isEmpty_iff.1 hl) h

end Fanza

/-- C5 (amended): for a pair of URLs that differ only in the known small/large
filename suffix (`js-NNN.jpg` vs `jp-NNN.jpg`) and carry no other
case-insensitive `jp-` marker, the gallery deduplication keeps exactly one
entry — the large (`jp-`) variant — whichever order the pair arrives in; and
for every input, the surviving entries are emitted sorted with large-hint
URLs first and ties in lexicographic order, not in first-occurrence order. -/
theorem C5_dedupe_large_preference (pre ds : Str) (hds : ds ≠ [])
    (hdig : ∀ c ∈ ds, c.isDigit = true)
    (hjpS : containsSub (lowerStr (pre ++ ((("js-").data) ++ (ds ++ ((".jpg").data)))))
      (("jp-").data) = false) :
    Fanza.dedupe_by_identity
        [pre ++ ((("js-").data) ++ (ds ++ ((".jpg").data))),
         pre ++ ((("jp-").data) ++ (ds ++ ((".jpg").data)))]
      = [pre ++ ((("jp-").data) ++ (ds ++ ((".jpg").data)))] ∧
    Fanza.dedupe_by_identity
        [pre ++ ((("jp-").data) ++ (ds ++ ((".jpg").data))),
         pre ++ ((("js-").data) ++ (ds ++ ((".jpg").data)))]
      = [pre ++ ((("jp-").data) ++ (ds ++ ((".jpg").data)))] ∧
    (∀ l : List Str, (Fanza.dedupe_by_identity l).Pairwise
        (fun a b => Fanza.sortLe a b = true)) := by
  set uS := pre ++ ((("js-").data) ++ (ds ++ ((".jpg").data))) with huS
  set uL := pre ++ ((("jp-").data) ++ (ds ++ ((".jpg").data))) with huL
  have hkS := Fanza.sample_key_small pre ds hds hdig hjpS
  have hkL := Fanza.sample_key_large pre ds hds hdig
  have hsS := Fanza.sample_score_small pre ds hds hdig hjpS
  have hsL := Fanza.sample_score_large pre ds hds hdig
  have hSne : uS ≠ [] := by simp [huS]
  have hLne : uL ≠ [] := by simp [huL]
  have hSempty := Fanza.isEmpty_false_of_ne hSne
  have hLempty := Fanza.isEmpty_false_of_ne hLne
  have hSL : ¬(uS = uL) := by
    intro h
    rw [huS, huL] at h
    have h2 := List.append_cancel_left h
    simp at h2
  have hLS : ¬(uL = uS) := fun h => hSL h.symm
  have hconSL : ([uS].contains uL) = false := by
    cases hc : [uS].contains uL
    · rfl
    · exact absurd (by simpa using List.mem_of_elem_eq_true hc) hLS
  have hconLS : ([uL].contains uS) = false := by
    cases hc : [uL].contains uS
    · rfl
    · exact absurd (by simpa using List.mem_of_elem_eq_true hc) hSL
  refine ⟨?_, ?_, fun l => Fanza.pySort_pairwise _⟩
  · have hu : Fanza.uniqPreserve [uS, uL] [] = [uS, uL] := by
      rw [Fanza.uniqPreserve, if_pos (by simp [hSempty])]
      rw [Fanza.uniqPreserve, if_pos (by simp [hLempty, hconSL, hLS])]
      rfl
    unfold Fanza.dedupe_by_identity
    rw [hu]
    simp only [Fanza.byKeyMap, List.foldl_cons, List.foldl_nil]
    rw [show Fanza.byKeyInsert [] (Fanza.sample_key uS) uS
        = [(Fanza.sample_key uS, uS)] from rfl]
    rw [Fanza.byKeyInsert, if_pos (by rw [hkS, hkL])]
    rw [if_pos (by rw [hsS, hsL]; omega)]
    rfl
  · have hu : Fanza.uniqPreserve [uL, uS] [] = [uL, uS] := by
      rw [Fanza.uniqPreserve, if_pos (by simp [hLempty])]
      rw [Fanza.uniqPreserve, if_pos (by simp [hSempty, hconLS, hSL])]
      rfl
    unfold Fanza.dedupe_by_identity
    rw [hu]
    simp only [Fanza.byKeyMap, List.foldl_cons, List.foldl_nil]
    rw [show Fanza.byKeyInsert [] (Fanza.sample_key uL) uL
        = [(Fanza.sample_key uL, uL)] from rfl]
    rw [Fanza.byKeyInsert, if_pos (by rw [hkS, hkL])]
    rw [if_neg (by rw [hsS, hsL]; omega)]
    rfl

theorem C5_dedupe_large_preference_witness :
    Fanza.dedupe_by_identity
        [("https://pics.site/dir/abcjs-001.jpg").data, ("https://pics.site/dir/abcjp-001.jpg").data]
      = [("https://pics.site/dir/abcjp-001.jpg").data] ∧
    Fanza.dedupe_by_identity
        [("https://pics.site/dir/abcjp-001.jpg").data, ("https://pics.site/dir/abcjs-001.jpg").data]
      = [("https://pics.site/dir/abcjp-001.jpg").data] := by
  have h := C5_dedupe_large_preference (("https://pics.site/dir/abc").data) (("001").data)
    (by decide) (by decide) (by decide)
  exact ⟨h.1, h.2.1⟩

/-- A raw API item: a Python dict (unique keys, insertion-ordered). -/
abbrev RawItem := List (Str × PyVal)

/-- Dict lookup: `d.get(k)` without default. -/
def dGet (kvs : RawItem) (k : Str) : Option PyVal :=
  (kvs.find? (fun kv => kv.1 = k)).map (fun kv => kv.2)

/-- `d.get(k)` (default `None`). -/
def pyGet (kvs : RawItem) (k : Str) : PyVal := (dGet kvs k).getD .pnone

/-- `d.get(k, default)`. -/
def pyGetD (kvs : RawItem) (k : Str) (default : PyVal) : PyVal := (dGet kvs k).getD default

/-- Python `a or b` (short-circuit on truthiness). -/
def pyOr (a b : PyVal) : PyVal := if truthy a then a else b

/-- Structural equality of values (Python `==` restricted to the shapes the
scraper compares; cross-type comparisons are unequal). -/
def pyEqB : PyVal → PyVal → Bool
  | .pstr a, .pstr b => a = b
  | .pint a, .pint b => a = b
  | .pnone, .pnone => true
  | _, _ => false

/-- Python `k in v` for a string key: substring test on strings, membership
on lists, key test on dicts; `TypeError` on non-iterables. -/
def pyIn (k : Str) (v : PyVal) : Except PyErr Bool :=
  match v with
  | .pstr s => .ok (containsSub s k)
  | .plist xs => .ok (xs.any (fun x => pyEqB x (.pstr k)))
  | .pdict kvs => .ok ((dGet kvs k).isSome)
  | .pint _ => .error .typeError
  | .pnone => .error .typeError

/-- Python `v[k]` for a string key (guarded by a prior `k in v` in the
source); string/list subscripts with a string index raise `TypeError`. -/
def pySubscript (v : PyVal) (k : Str) : Except PyErr PyVal :=
  match v with
  | .pdict kvs =>
    match dGet kvs k with
    | some x => .ok x
    | none => .error .typeError
  | _ => .error .typeError

/-- `v.get(k, default)` as a method call: `AttributeError` unless `v` is a
dict. -/
def pyGetMethod (v : PyVal) (k : Str) (default : PyVal) : Except PyErr PyVal :=
  match v with
  | .pdict kvs => .ok (pyGetD kvs k default)
  | _ => .error .attributeError

/-- Decimal digits of a natural number. -/
def natStr (n : Nat) : Str := Nat.toDigits 10 n

/-- Python `str(...)` on the values the scraper passes: identity on strings,
decimal on ints, `None` for none.  The `repr` of containers is not needed by
any claim and is represented by a fixed token. -/
def pyStrVal : PyVal → Str
  | .pstr s => s
  | .pint n => if n < 0 then '-' :: natStr n.natAbs else natStr n.natAbs
  | .pnone => ("None").data
  | .plist _ => ("<list>").data
  | .pdict _ => ("<dict>").data

/-- Split a string at the first occurrence of `c`: (before, after?) where
`after = none` when `c` does not occur. -/
def splitAtFirst (c : Char) : Str → Str × Option Str
  | [] => ([], none)
  | x :: xs =>
    if x = c then ([], some xs)
    else
      let r := splitAtFirst c xs
      (x :: r.1, r.2)

/-- Split on every occurrence of `c` (Python `s.split(c)`). -/
def splitOnChar (c : Char) : Str → List Str
  | [] => [[]]
  | x :: xs =>
    if x = c then [] :: splitOnChar c xs
    else
      match splitOnChar c xs with
      | [] => [[x]]
      | seg :: rest => (x :: seg) :: rest

namespace UrlM

/-- RFC-3986-style scheme: a letter followed by letters, digits, `+`, `-`,
`.`. -/
def validScheme (s : Str) : Bool :=
  match s with
  | [] => false
  | c :: cs =>
    c.isAlpha && cs.all (fun d => d.isAlphanum || d = '+' || d = '-' || d = '.')

/-- Model of `urllib.parse.urlsplit`: (scheme, netloc, path, query,
fragment).  Percent-encoding is left untouched. -/
def urlsplitM (u : Str) : Str × Str × Str × Str × Str :=
  let s1 := splitAtFirst '#' u
  let frag := s1.2.getD []
  let beforeFrag := s1.1
  let s2 := splitAtFirst ':' beforeFrag
  let hasScheme := s2.2.isSome && validScheme s2.1
  let scheme := if hasScheme then lowerStr s2.1 else []
  let rest := if hasScheme then s2.2.getD [] else beforeFrag
  let hasNetloc := startsWithB (("//").data) rest
  let afterSlashes := if hasNetloc then rest.drop 2 else rest
  let netloc := if hasNetloc then afterSlashes.takeWhile (fun c => c ≠ '/' && c ≠ '?') else []
  let pathAndQuery := if hasNetloc then afterSlashes.dropWhile (fun c => c ≠ '/' && c ≠ '?')
    else rest
  let s3 := splitAtFirst '?' pathAndQuery
  (scheme, netloc, s3.1, s3.2.getD [], frag)

/-- Model of `urllib.parse.urlunsplit`. -/
def urlunsplitM (scheme netloc path query frag : Str) : Str :=
  let url1 :=
    if !netloc.isEmpty || startsWithB (("//").data) path then
      (("//").data) ++ netloc ++
        (if !path.isEmpty && !startsWithB (("/").data) path then '/' :: path else path)
    else path
  let url2 := if !scheme.isEmpty then scheme ++ (":").data ++ url1 else url1
  let url3 := if !query.isEmpty then url2 ++ (("?").data) ++ query else url2
  if !frag.isEmpty then url3 ++ (("#").data) ++ frag else url3

/-- Model of `parse_qsl(query, keep_blank_values=True)`; percent-decoding is
modelled as the identity (no claim evaluates an escaped query). -/
def parseQslKeepBlank (q : Str) : List (Str × Str) :=
  ((splitOnChar '&' q).filter (fun chunk => !chunk.isEmpty)).map (fun chunk =>
    match splitAtFirst '=' chunk with
    | (k, some v) => (k, v)
    | (k, none) => (k, []))

/-- `urlencode` for the at-most-one-entry dicts produced here. -/
def urlencodeM (kvs : List (Str × Str)) : Str :=
  match kvs with
  | [] => []
  | [(k, v)] => k ++ ("=").data ++ v
  | (k, v) :: rest => k ++ ("=").data ++ v ++ ("&").data ++ urlencodeM rest

end UrlM

namespace Fanza

/-- app/providers/fanza.py lines 192-199, `_clean_query_keep_webp`: keep only
an `f=webp` query parameter (last occurrence wins, as in a dict build), drop the
rest.  The body is wrapped in try/except returning `u`; the model is total. -/
def clean_query_keep_webp (u : Str) : Str :=
  let parts := UrlM.urlsplitM u
  let qs := UrlM.parseQslKeepBlank parts.2.2.2.1
  let fval := (((qs.filter (fun kv => kv.1 = ("f").data)).getLast?).map (fun kv => kv.2)).getD []
  let keep := if lowerStr fval = ("webp").data then [((("f").data), (("webp").data))] else []
  UrlM.urlunsplitM parts.1 parts.2.1 parts.2.2.1 (UrlM.urlencodeM keep) parts.2.2.2.2

end Fanza

namespace Fanza

/-- Does one of `jpg|jpeg|png|webp` match case-insensitively at the front of
`r`, leaving a remainder accepted by `after`?  (Regex alternation followed by
the context `after`.) -/
def extAltCi (r : Str) (after : Str → Bool) : Bool :=
  ((stripCi (("jpg").data) r).map after).getD false ||
  ((stripCi (("jpeg").data) r).map after).getD false ||
  ((stripCi (("png").data) r).map after).getD false ||
  ((stripCi (("webp").data) r).map after).getD false

/-- Try `js-(\d+)\.(jpg|jpeg|png|webp)(\?.*)?$` at the head of `s`,
returning the digits on a match. -/
def tryJsAt (s : Str) : Option Str :=
  match stripCi (("js-").data) s with
  | none => none
  | some r1 =>
    let ds := r1.takeWhile (fun c => c.isDigit)
    let r2 := r1.dropWhile (fun c => c.isDigit)
    if ds.isEmpty then none
    else
      match r2 with
      | '.' :: r3 =>
        if extAltCi r3 (fun rest => rest.isEmpty || (rest.head?.any (fun c => c = '?'))) then
          some ds
        else none
      | _ => none

/-- Leftmost match position of the `js-…$` pattern: (prefix, digits). -/
def jsScan : Str → Option (Str × Str)
  | [] => none
  | c :: cs =>
    match tryJsAt (c :: cs) with
    | some ds => some ([], ds)
    | none => (jsScan cs).map (fun pr => (c :: pr.1, pr.2))

/-- app/providers/fanza.py line 220:
`re.sub(r'js-(\d+)\.(jpg|jpeg|png|webp)(\?.*)?$', r'jp-\1.jpg', u, re.I)`.
The pattern is anchored at the end, so at most one substitution happens and
everything from the leftmost match on (including any query) is replaced. -/
def subJsQueryRule (u : Str) : Str :=
  match jsScan u with
  | none => u
  | some (pre, ds) => pre ++ (("jp-").data) ++ ds ++ ((".jpg").data)

/-- Try the awsimgsrc pattern `/([^/]+)/\1-(\d+)\.(jpg|jpeg|png|webp)` at the
head of `s` (re.I, backreference compared case-insensitively); returns the
matched segment (`cid`). -/
def tryAwsAt (s : Str) : Option Str :=
  match s with
  | '/' :: rest =>
    let seg := rest.takeWhile (fun c => c ≠ '/')
    let r1 := rest.dropWhile (fun c => c ≠ '/')
    if seg.isEmpty then none
    else
      match r1 with
      | '/' :: r2 =>
        match stripCi seg r2 with
        | none => none
        | some r3 =>
          match r3 with
          | '-' :: r4 =>
            let ds := r4.takeWhile (fun c => c.isDigit)
            let r5 := r4.dropWhile (fun c => c.isDigit)
            if ds.isEmpty then none
            else
              match r5 with
              | '.' :: r6 => if extAltCi r6 (fun _ => true) then some seg else none
              | _ => none
          | _ => none
      | _ => none
  | _ => none

/-- Leftmost `cid` found by `re.search` of the awsimgsrc pattern. -/
def awsScan : Str → Option Str
  | [] => none
  | c :: cs =>
    match tryAwsAt (c :: cs) with
    | some seg => some seg
    | none => awsScan cs

/-- Match the fixed pattern `/{cid}/{cid}-(\d+)\.(?:jpg|jpeg|png|webp)` at
the head of `s` (re.I); returns the digits and the remainder after the
match. -/
def tryAwsFixedAt (cid : Str) (s : Str) : Option (Str × Str) :=
  match stripCi (('/' :: cid) ++ ('/' :: cid) ++ [('-' : Char)]) s with
  | none => none
  | some r1 =>
    let ds := r1.takeWhile (fun c => c.isDigit)
    let r2 := r1.dropWhile (fun c => c.isDigit)
    if ds.isEmpty then none
    else
      match r2 with
      | '.' :: r3 =>
        match stripCi (("jpg").data) r3 with
        | some rest => some (ds, rest)
        | none =>
          match stripCi (("jpeg").data) r3 with
          | some rest => some (ds, rest)
          | none =>
            match stripCi (("png").data) r3 with
            | some rest => some (ds, rest)
            | none =>
              match stripCi (("webp").data) r3 with
              | some rest => some (ds, rest)
              | none => none
      | _ => none

/-- `re.sub` of the fixed awsimgsrc pattern, replacing every non-overlapping
match left to right with `/{cid}/{cid}jp-\1.jpg`; `fuel` bounds the scan by
the string length. -/
def awsSubAll (cid : Str) : Nat → Str → Str
  | 0, s => s
  | _ + 1, [] => []
  | fuel + 1, c :: cs =>
    match tryAwsFixedAt cid (c :: cs) with
    | some (ds, rest) =>
      ('/' :: cid) ++ ('/' :: cid) ++ (("jp-").data) ++ ds ++ ((".jpg").data) ++
        awsSubAll cid fuel rest
    | none => c :: awsSubAll cid fuel cs

/-- app/providers/fanza.py lines 222-229: the awsimgsrc number-to-`jp`
rewrite — find the `/cid/cid-NNN.ext` pattern, then substitute all its
occurrences for this `cid`. -/
def awsRule (u : Str) : Str :=
  match awsScan u with
  | none => u
  | some cid => awsSubAll cid u.length u

/-- app/providers/fanza.py lines 201-232, `_upgrade_dmm_size` on a string
argument (the `if not u` guard lives in `upgradeVal` for non-string
values). -/
def upgradeStr (u0 : Str) : Str :=
  if u0.isEmpty then u0
  else
    let u1 := if startsWithB (("//").data) u0 then (("https:").data) ++ u0 else u0
    let low := lowerStr u1
    let is_dmm := containsSub low (("dmm.co.jp").data) || containsSub low (("dmm.com").data)
    if containsSub low (("now_print").data) || containsSub low (("nowprinting").data) ||
        containsSub low (("noimage").data) || containsSub low (("no_image").data) ||
        containsSub low (("nopic").data) || containsSub low (("noimg").data) then []
    else if is_dmm then
      let u2 := subJsQueryRule u1
      if containsSub low (("awsimgsrc.dmm.co.jp").data) then
        clean_query_keep_webp (awsRule u2)
      else clean_query_keep_webp u2
    else u1

/-- `_upgrade_dmm_size` on an arbitrary value: falsy values are returned
unchanged (`if not u: return u`); a truthy non-string raises at
`u.startswith`. -/
def upgradeVal (v : PyVal) : Except PyErr PyVal :=
  if !truthy v then .ok v
  else
    match v with
    | .pstr s => .ok (.pstr (upgradeStr s))
    | _ => .error .attributeError

/-- `re.search(r"\.(jpg|jpeg|png|webp)(\?|$)", u, re.I)` as a predicate. -/
def imageExtSearch (u : Str) : Bool :=
  let low := lowerStr u
  containsSub low ((".jpg?").data) || endsWithB low ((".jpg").data) ||
  containsSub low ((".jpeg?").data) || endsWithB low ((".jpeg").data) ||
  containsSub low ((".png?").data) || endsWithB low ((".png").data) ||
  containsSub low ((".webp?").data) || endsWithB low ((".webp").data)

/-- The string case of `_collect` (fanza.py lines 331-336): upgrade the
stripped URL and keep it when it looks like an image URL. -/
def collectStr (s : Str) : List Str :=
  let u := upgradeStr (pyStrip s)
  if !u.isEmpty && imageExtSearch u then [u] else []

mutual

/-- `_collect` (fanza.py lines 329-347): gather candidate image URLs from an
arbitrarily nested value.  For dicts, the `image`/`src`/`url` keys are taken
first (when strings), then every value is walked; non-handled scalars fall
through. -/
def collectVal : PyVal → List Str
  | .pnone => []
  | .pint _ => []
  | .pstr s => collectStr s
  | .pdict kvs =>
    (match dGet kvs (("image").data) with
     | some (.pstr s) => collectStr s
     | _ => []) ++
    (match dGet kvs (("src").data) with
     | some (.pstr s) => collectStr s
     | _ => []) ++
    (match dGet kvs (("url").data) with
     | some (.pstr s) => collectStr s
     | _ => []) ++
    collectPairs kvs
  | .plist xs => collectList xs

def collectList : List PyVal → List Str
  | [] => []
  | v :: vs => collectVal v ++ collectList vs

def collectPairs : List (Str × PyVal) → List Str
  | [] => []
  | kv :: rest => collectVal kv.2 ++ collectPairs rest

end

/-- fanza.py lines 320-378, `_extract_sample_images`: walk the candidate
keys, then deduplicate and order via the identity-key stage
(`dedupe_by_identity` embeds lines 352-378). -/
def extract_sample_images (it : RawItem) : List Str :=
  let urls :=
    (match dGet it (("sampleImageURL").data) with
     | some v => collectVal v | none => []) ++
    (match dGet it (("sampleImageURLS").data) with
     | some v => collectVal v | none => []) ++
    (match dGet it (("sampleImage").data) with
     | some v => collectVal v | none => []) ++
    (match dGet it (("sampleimage").data) with
     | some v => collectVal v | none => []) ++
    (match dGet it (("iteminfo").data) with
     | some v => collectVal v | none => [])
  dedupe_by_identity urls

end Fanza

namespace Fanza

/-- The three trailer fields produced by `_extract_trailer_fields`
(fanza.py lines 76-112).  The `mp4`/`m3u8` locals classified from `raw_url`
at lines 100-105 are never read afterwards and are omitted; `trailer_url` is
always `None` (line 108). -/
structure TrailerFields where
  url : PyVal
  poster : PyVal
  embed : PyVal
deriving Repr

def extract_trailer_fields (it : RawItem) : TrailerFields :=
  let iframe := pyOr (pyGet it (("trailer_embed").data))
    (pyOr (pyGet it (("trailerEmbedURL").data))
      (pyOr (pyGet it (("sampleMovieEmbed").data))
        (pyOr (pyGet it (("embed_url").data)) .pnone)))
  let poster := pyOr (pyGet it (("trailer_poster").data))
    (pyOr (pyGet it (("image_large").data))
      (pyOr (pyGet it (("imageURL").data)) .pnone))
  { url := .pnone, poster := poster, embed := pyOr iframe .pnone }

/-- fanza.py lines 31-38, `build_fanza_iframe_src`. -/
def build_fanza_iframe_src (cid : PyVal) (affiliate_id : Str) (size : Str) : PyVal :=
  if !truthy cid || affiliate_id.isEmpty then .pnone
  else
    .pstr ((("https://www.dmm.co.jp/litevideo/-/part/=/affi_id=").data) ++
      pyStrip affiliate_id ++ (("/cid=").data) ++ pyStrip (pyStrVal cid) ++
      (("/size=").data) ++ pyStrip (if size.isEmpty then ("560_360").data else size) ++
      (("/").data))

/-- fanza.py lines 386-391: the maker resolution of `normalize_item`. -/
def resolveMaker (it : RawItem) : Except PyErr PyVal :=
  match dGet it (("maker").data) with
  | some (.pdict mkvs) => .ok (pyGetD mkvs (("name").data) (.pstr []))
  | _ =>
    match dGet it (("iteminfo").data) with
    | none => .ok (.pstr [])
    | some ii =>
      match pyIn (("maker").data) ii with
      | .error e => .error e
      | .ok false => .ok (.pstr [])
      | .ok true =>
        match pySubscript ii (("maker").data) with
        | .error e => .error e
        | .ok m =>
          match m with
          | .plist (x :: _) =>
            match x with
            | .pdict xkvs => .ok (pyGetD xkvs (("name").data) (.pstr []))
            | _ => .error .attributeError
          | _ => .ok (.pstr [])

/-- Python `", ".join(vals)`: `TypeError` unless every element is a string. -/
def joinComma : List PyVal → Except PyErr Str
  | [] => .ok []
  | [.pstr s] => .ok s
  | .pstr s :: v :: vs =>
    match joinComma (v :: vs) with
    | .ok rest => .ok (s ++ ((", ").data) ++ rest)
    | .error e => .error e
  | _ => .error .typeError

/-- fanza.py lines 393-398 / 400-404: collect the truthy `name` values of the
dict entries of `ii.get(key, []) or []` and join them.  Iterating a truthy
non-list raises unless it is a string or dict (whose elements are not dicts,
contributing nothing); modelled via `pyIter`. -/
def pyIter (v : PyVal) : Except PyErr (List PyVal) :=
  match v with
  | .plist xs => .ok xs
  | .pstr s => .ok (s.map (fun c => .pstr [c]))
  | .pdict kvs => .ok (kvs.map (fun kv => .pstr kv.1))
  | .pint _ => .error .typeError
  | .pnone => .error .typeError

def collectNames (ii : PyVal) (key : Str) : Except PyErr Str :=
  match pyGetMethod ii key (.plist []) with
  | .error e => .error e
  | .ok raw =>
    match pyIter (pyOr raw (.plist [])) with
    | .error e => .error e
    | .ok xs =>
      joinComma (xs.foldl (fun acc a =>
        match a with
        | .pdict akvs =>
          let nv := pyGetD akvs (("name").data) .pnone
          if truthy nv then acc ++ [nv] else acc
        | _ => acc) [])

/-- fanza.py lines 248-277, `_prefer_bigger_jacket_from_path`; the `_head_ok`
probe of lines 234-246 performs only network I/O and is absorbed into the
oracle `headOk : Str → Bool`. -/
def prefer_bigger_jacket (headOk : Str → Bool) (img_url : Str) (cid : Str) : Str :=
  if img_url.isEmpty || cid.isEmpty then img_url
  else
    let parts := UrlM.urlsplitM img_url
    let sppath := parts.2.2.1
    let base_dir := match (splitOnChar '/' sppath).dropLast with
      | [] => sppath
      | segs => List.intercalate ((("/").data)) segs
    let path_l := lowerStr sppath
    let is_amateur := containsSub path_l (("/digital/amateur/").data)
    let is_videoa := containsSub path_l (("/digital/video/").data) ||
      containsSub path_l (("/digital/videoc/").data)
    let cand_files :=
      if is_amateur then
        [cid ++ (("jp.jpg").data), cid ++ (("pl.jpg").data), cid ++ (("pf.jpg").data),
         cid ++ (("ps.jpg").data), cid ++ (("jm.jpg").data)]
      else if is_videoa then
        [cid ++ (("pl.jpg").data), cid ++ (("pt.jpg").data), cid ++ (("pf.jpg").data),
         cid ++ (("ps.jpg").data), cid ++ (("jp.jpg").data), cid ++ (("jm.jpg").data)]
      else
        [cid ++ (("pl.jpg").data), cid ++ (("pt.jpg").data), cid ++ (("pf.jpg").data),
         cid ++ (("ps.jpg").data), cid ++ (("jp.jpg").data), cid ++ (("jm.jpg").data)]
    let urls := cand_files.map (fun fn =>
      UrlM.urlunsplitM parts.1 parts.2.1 (base_dir ++ (("/").data) ++ fn) [] [])
    match urls.find? headOk with
    | some url => url
    | none => img_url

end Fanza

namespace Config

/-- app/core/config.py: the environment-derived constants of the module,
passed explicitly (the spec's design note prescribes exactly this).  The
float `FANZA_IFRAME_RATIO` is carried as its rounded value in hundredths of a
percent; no claim evaluates it. -/
structure Cfg where
  affiliate_id : Str
  affiliate_redirect : Str
  affiliate_ch : Str
  iframe_size : Str
  iframe_w : Int
  iframe_h : Int
  iframe_ratio_centi : Int

/-- config.py line 21, `REDIRECT_HOSTS`. -/
def redirect_hosts : List Str :=
  [("al.dmm.com").data, ("al.fanza.co.jp").data, ("al.dmm.co.jp").data]

/-- config.py lines 41-46, `_is_aff_redirect` (the try/except makes it
total). -/
def is_aff_redirect (url : Str) : Bool :=
  let host := lowerStr (UrlM.urlsplitM url).2.1
  redirect_hosts.any (fun h => endsWithB host h)

/-- config.py lines 49-56, `_extract_lurl`: first `lurl` query value
(percent-decoding modelled as the identity; no claim evaluates an escaped
`lurl`). -/
def extract_lurl (url : Str) : Option Str :=
  let q := (UrlM.urlsplitM url).2.2.2.1
  let pairs := (UrlM.parseQslKeepBlank q).filter
    (fun kv => kv.1 = ("lurl").data && !kv.2.isEmpty)
  (pairs.head?).map (fun kv => kv.2)

/-- config.py lines 59-72, `_unwrap_aff_url` with its `max_hops` fuel. -/
def unwrap_aff_url : Nat → Str → Str
  | 0, inner => inner
  | hops + 1, inner =>
    if is_aff_redirect inner then
      match extract_lurl inner with
      | none => inner
      | some nxt => unwrap_aff_url hops nxt
    else inner

/-- `urllib.parse.quote(s, safe="")` on ASCII text: percent-encode everything
outside the unreserved set (multi-byte characters are outside every claim's
inputs). -/
def hexDigit (n : Nat) : Char :=
  if n < 10 then Char.ofNat (('0').toNat + n) else Char.ofNat (('A').toNat + n - 10)

def quoteM (s : Str) : Str :=
  s.foldr (fun c acc =>
    if c.isAlphanum || c = '_' || c = '.' || c = '~' || c = '-' then c :: acc
    else '%' :: hexDigit (c.toNat / 16) :: hexDigit (c.toNat % 16) :: acc) []

/-- config.py lines 75-97, `make_aff_url`.  A falsy base yields `""`; a
truthy non-string survives unwrap (the try/excepts swallow the type error)
but `quote` then raises when the redirect is configured, otherwise the value
is returned as-is. -/
def make_aff_url (cfg : Cfg) (base : PyVal) : Except PyErr PyVal :=
  if !truthy base then .ok (.pstr [])
  else
    match base with
    | .pstr s =>
      let final := unwrap_aff_url 5 s
      if !cfg.affiliate_id.isEmpty && !cfg.affiliate_redirect.isEmpty then
        let aff := cfg.affiliate_redirect ++ (("/?lurl=").data) ++ quoteM final ++
          (("&af_id=").data) ++ cfg.affiliate_id
        if !cfg.affiliate_ch.isEmpty then
          .ok (.pstr (aff ++ (("&ch=").data) ++ quoteM cfg.affiliate_ch))
        else .ok (.pstr aff)
      else .ok (.pstr s)
    | _ =>
      if !cfg.affiliate_id.isEmpty && !cfg.affiliate_redirect.isEmpty then
        .error .typeError
      else .ok base

end Config

namespace Fanza

/-- Case-sensitive prefix strip. -/
def stripExact : Str → Str → Option Str
  | [], s => some s
  | _ :: _, [] => none
  | p :: ps, c :: cs => if p = c then stripExact ps cs else none

/-- Match `size=\d+_\d+` at the head of `s` (case-sensitive, fanza.py lines
460-464); returns the remainder after the match. -/
def trySizeAt (s : Str) : Option Str :=
  match stripExact (("size=").data) s with
  | none => none
  | some r1 =>
    let d1 := r1.takeWhile (fun c => c.isDigit)
    let r2 := r1.dropWhile (fun c => c.isDigit)
    if d1.isEmpty then none
    else
      match r2 with
      | '_' :: r3 =>
        let d2 := r3.takeWhile (fun c => c.isDigit)
        let r4 := r3.dropWhile (fun c => c.isDigit)
        if d2.isEmpty then none else some r4
      | _ => none

/-- `re.sub(r"size=\d+_\d+", f"size=W_H", s)`: replace all non-overlapping
matches left to right; `fuel` bounds the scan by the string length. -/
def subSizeAll (w h : Int) : Nat → Str → Str
  | 0, s => s
  | _ + 1, [] => []
  | fuel + 1, c :: cs =>
    match trySizeAt (c :: cs) with
    | some rest =>
      (("size=").data) ++ pyStrVal (.pint w) ++ [('_' : Char)] ++ pyStrVal (.pint h) ++
        subSizeAll w h fuel rest
    | none => c :: subSizeAll w h fuel cs

/-- The canonical record produced by `normalize_item` (fanza.py lines
430-479): the row dict's fields in construction order.  Fields the code can
leave holding arbitrary Python values are typed `PyVal`; joined strings are
`Str`.  `aspect_ratio` is carried in hundredths of a percent. -/
structure Row where
  cid : PyVal
  title : PyVal
  affiliateURL : PyVal
  URL : PyVal
  date : PyVal
  maker : PyVal
  actress : Str
  genres : Str
  sample_images : Str
  image_large : PyVal
  trailer_url : PyVal
  trailer_poster : PyVal
  trailer_embed : PyVal
  player_width : Int
  player_height : Int
  aspect_ratio_centi : Int
  aff_url : PyVal
deriving Repr

/-- `".mp4"/".m3u8"` direct-link test of `sanitize_trailer_fields`
(fanza.py lines 483-485) on a string. -/
def isDirectStr (u : Str) : Bool :=
  let low := lowerStr u
  endsWithB low ((".mp4").data) || endsWithB low ((".m3u8").data) ||
    containsSub low ((".mp4?").data) || containsSub low ((".m3u8?").data)

/-- `is_direct(item.get("trailer_url", ""))`: `(url or "").lower()` raises on
a truthy non-string. -/
def isDirectVal (v : PyVal) : Except PyErr Bool :=
  match pyOr v (.pstr []) with
  | .pstr s => .ok (isDirectStr s)
  | _ => .error .attributeError

/-- fanza.py lines 481-495, `sanitize_trailer_fields` on a normalized row:
null a direct-link `trailer_url`; the embed branch returns the item
unchanged either way (the non-embed fall-through only carries a TODO). -/
def sanitize_trailer_fields (r : Row) : Except PyErr Row :=
  match isDirectVal r.trailer_url with
  | .error e => .error e
  | .ok d =>
    let r1 := if d then { r with trailer_url := .pnone } else r
    .ok r1

/-- fanza.py line 381: `content_id or cid or ""`. -/
def cidOf (it : RawItem) : PyVal :=
  pyOr (pyGet it (("content_id").data)) (pyOr (pyGet it (("cid").data)) (.pstr []))

/-- fanza.py line 383: `URL or affiliateURL or ""`. -/
def urlOf (it : RawItem) : PyVal :=
  pyOr (pyGet it (("URL").data)) (pyOr (pyGet it (("affiliateURL").data)) (.pstr []))

/-- fanza.py line 394: `it.get("iteminfo") or {}`. -/
def iiOf (it : RawItem) : PyVal := pyOr (pyGet it (("iteminfo").data)) (.pdict [])

/-- fanza.py lines 406-409: the raw `imageURL.large or list or ""`. -/
def image0Of (it : RawItem) : PyVal :=
  match dGet it (("imageURL").data) with
  | some (.pdict ikvs) =>
    pyOr (pyGetD ikvs (("large").data) .pnone)
      (pyOr (pyGetD ikvs (("list").data) .pnone) (.pstr []))
  | _ => .pstr []

/-- fanza.py line 433: `affiliateURL or affiliate_url or ""`. -/
def affRawOf (it : RawItem) : PyVal :=
  pyOr (pyGet it (("affiliateURL").data))
    (pyOr (pyGet it (("affiliate_url").data)) (.pstr []))

/-- fanza.py lines 419-422: the jacket-promotion step (`_prefer_bigger...`
probe behind `headOk`); `(cid or "").lower()` raises on a truthy non-string
cid. -/
def jacketStep (headOk : Str → Bool) (cid image2 : PyVal) : Except PyErr PyVal :=
  if truthy image2 then
    match image2 with
    | .pstr s =>
      if containsSub s (("pics.dmm.co.jp").data) && truthy cid then
        match cid with
        | .pstr cs =>
          let better := prefer_bigger_jacket headOk s (lowerStr cs)
          if !better.isEmpty && !(better = s) then .ok (.pstr better) else .ok (.pstr s)
        | _ => .error .attributeError
      else .ok (.pstr s)
    | _ => .error .typeError
  else .ok image2

/-- fanza.py lines 425-428: fall back to a `jp-` first sample when the
jacket is missing, a placeholder, or a small (`jm.jpg`) image. -/
def imageFallback (image3 : PyVal) (first_sample : Str) : PyVal :=
  if (!truthy image3 ||
      (match image3 with
       | .pstr s => is_now_printing_url_like s || endsWithB (lowerStr s) (("jm.jpg").data)
       | _ => false)) &&
     !first_sample.isEmpty && containsSub (lowerStr first_sample) (("jp-").data) then
    .pstr first_sample
  else image3

/-- fanza.py lines 445-451: auto-build the official iframe src when no embed
came from the raw item. -/
def embedInit (cfg : Config.Cfg) (cid embed : PyVal) : PyVal :=
  if !truthy embed then build_fanza_iframe_src cid cfg.affiliate_id cfg.iframe_size
  else embed

/-- fanza.py lines 459-464: rewrite `size=W_H` inside a truthy embed
(`re.sub` with a non-string raises). -/
def embedSizeStep (cfg : Config.Cfg) (embed1 : PyVal) : Except PyErr PyVal :=
  if truthy embed1 then
    match embed1 with
    | .pstr s => .ok (.pstr (subSizeAll cfg.iframe_w cfg.iframe_h s.length s))
    | _ => .error .typeError
  else .ok embed1

/-- fanza.py line 467: first entry of the pipe-joined sample string. -/
def firstSampleStrOf (sample_images_str : Str) : Str :=
  if !sample_images_str.isEmpty then ((splitOnChar '|' sample_images_str).head?).getD []
  else []

/-- fanza.py lines 467-473: poster replacement for missing/`jm.jpg`
posters. -/
def posterStep (image4 : PyVal) (first_sample_str : Str) (posterRaw : PyVal) : PyVal :=
  let poster0 := pyOr posterRaw .pnone
  if !truthy poster0 ||
     (match poster0 with
      | .pstr s => endsWithB (lowerStr s) (("jm.jpg").data)
      | _ => false) then
    pyOr image4
      (if (if !first_sample_str.isEmpty then
            containsSub (lowerStr first_sample_str) (("jp-").data)
          else false) then
        PyVal.pstr first_sample_str
      else .pnone)
  else poster0

/-- fanza.py lines 380-479, `normalize_item`, parameterised by the module
configuration (`cfg`, see config.py) and the network probe used by the
jacket upgrade of lines 419-422 (`headOk`).  The fallible steps are
sequenced in source-line order; the pure field computations are given by the
named helpers above. -/
def normalize_item (cfg : Config.Cfg) (headOk : Str → Bool) (it : RawItem) :
    Except PyErr Row :=
  match resolveMaker it with
  | .error e => .error e
  | .ok maker =>
  match collectNames (iiOf it) (("actress").data) with
  | .error e => .error e
  | .ok actress_str =>
  match collectNames (iiOf it) (("genre").data) with
  | .error e => .error e
  | .ok genres_str =>
  match upgradeVal (image0Of it) with
  | .error e => .error e
  | .ok image1 =>
  match is_now_printing_url_like_val image1 with
  | .error e => .error e
  | .ok npr =>
  match jacketStep headOk (cidOf it) (if npr then .pstr [] else image1) with
  | .error e => .error e
  | .ok image3 =>
  match embedSizeStep cfg
      (embedInit cfg (cidOf it) (extract_trailer_fields it).embed) with
  | .error e => .error e
  | .ok embed2 =>
  match Config.make_aff_url cfg (pyOr (affRawOf it) (pyOr (urlOf it) (.pstr []))) with
  | .error e => .error e
  | .ok aff =>
  .ok {
    cid := cidOf it
    title := pyGetD it (("title").data) (.pstr [])
    affiliateURL := affRawOf it
    URL := urlOf it
    date := pyGetD it (("date").data) (.pstr [])
    maker := maker
    actress := actress_str
    genres := genres_str
    sample_images := List.intercalate (("|").data) (extract_sample_images it)
    image_large := imageFallback image3 (((extract_sample_images it).head?).getD [])
    trailer_url := (extract_trailer_fields it).url
    trailer_poster := posterStep
      (imageFallback image3 (((extract_sample_images it).head?).getD []))
      (firstSampleStrOf (List.intercalate (("|").data) (extract_sample_images it)))
      (extract_trailer_fields it).poster
    trailer_embed := embed2
    player_width := cfg.iframe_w
    player_height := cfg.iframe_h
    aspect_ratio_centi := cfg.iframe_ratio_centi
    aff_url := aff }

end Fanza

/-- C4 (amended): the `trailer_url` field of every normalized record is
`None` — extraction never forwards a direct link into it, and
`sanitize_trailer_fields` keeps it `None`.  The embed field, by contrast, is
copied from the raw item's embed-designated keys without any direct-link
check (see the counterexample). -/
theorem C4_trailer_url_never_direct (cfg : Config.Cfg) (headOk : Str → Bool)
    (it : RawItem) (row : Fanza.Row)
    (h : Fanza.normalize_item cfg headOk it = .ok row) :
    row.trailer_url = PyVal.pnone ∧
      (∀ row2, Fanza.sanitize_trailer_fields row = .ok row2 →
        row2.trailer_url = PyVal.pnone) := by
  have hurl : row.trailer_url = PyVal.pnone := by
    unfold Fanza.normalize_item at h
    repeat' split at h
    all_goals
      first
        | exact Except.noConfusion h
        | (injection h with h3
           rw [← h3]
           rfl)
  refine ⟨hurl, ?_⟩
  intro row2 h2
  unfold Fanza.sanitize_trailer_fields at h2
  rw [hurl] at h2
  have hdir : Fanza.isDirectVal PyVal.pnone = .ok false := rfl
  rw [hdir] at h2
  simp only [Bool.false_eq_true, if_false, Except.ok.injEq] at h2
  rw [← h2, hurl]

/-- Configuration fixture: no affiliate credentials, default player size. -/
def c4cfg : Config.Cfg :=
  { affiliate_id := [], affiliate_redirect := [], affiliate_ch := []
    iframe_size := ("1280_720").data, iframe_w := 1280, iframe_h := 720
    iframe_ratio_centi := 5625 }

/-- A raw item whose embed-designated key carries a direct `.mp4` link. -/
def c4item : RawItem :=
  [((("trailer_embed").data),
    .pstr (("https://cc3001.dmm.co.jp/litevideo/freepv/a/abc/abc00001/abc00001mhb.mp4").data))]

theorem C4_trailer_url_never_direct_witness :
    ∃ row, Fanza.normalize_item c4cfg (fun _ => false) [] = .ok row ∧
      row.trailer_url = PyVal.pnone := by
  obtain ⟨row, hrow⟩ : ∃ row, Fanza.normalize_item c4cfg (fun _ => false) [] = .ok row :=
    ⟨_, rfl⟩
  exact ⟨row, hrow, (C4_trailer_url_never_direct c4cfg (fun _ => false) [] row hrow).1⟩

/-- C4 (counterexample): a direct `.mp4` URL supplied under the raw item's
`trailer_embed` key flows into the normalized record's `trailer_embed` field
unchecked, and `sanitize_trailer_fields` leaves it there — so a
template-visible field does carry a direct video file link, refuting the
claim for every field. -/
theorem C4_counterexample :
    (Fanza.normalize_item c4cfg (fun _ => false) c4item).map (fun r => r.trailer_embed)
      = .ok (.pstr
        (("https://cc3001.dmm.co.jp/litevideo/freepv/a/abc/abc00001/abc00001mhb.mp4").data)) ∧
    Fanza.isDirectStr
        (("https://cc3001.dmm.co.jp/litevideo/freepv/a/abc/abc00001/abc00001mhb.mp4").data)
      = true ∧
    ((Fanza.normalize_item c4cfg (fun _ => false) c4item).bind
        Fanza.sanitize_trailer_fields).map (fun r => r.trailer_embed)
      = .ok (.pstr
        (("https://cc3001.dmm.co.jp/litevideo/freepv/a/abc/abc00001/abc00001mhb.mp4").data)) := by
  refine ⟨?_, ?_, ?_⟩ <;> rfl

namespace Fanza

/-- A `name` entry of an `actress`/`genre` element that the join can
consume: dict entries whose truthy `name` is a string. -/
def nameEntryOk (a : PyVal) : Bool :=
  match a with
  | .pdict akvs =>
    (match dGet akvs (("name").data) with
     | some nv => !truthy nv || (match nv with | .pstr _ => true | _ => false)
     | none => true)
  | _ => true

/-- An `actress`/`genre` value the loop of fanza.py lines 395-397 iterates
without error: a list of well-named entries, or anything falsy. -/
def namesListOk (ov : Option PyVal) : Bool :=
  match ov with
  | none => true
  | some v =>
    match v with
    | .plist xs => xs.all nameEntryOk
    | _ => !truthy v

/-- The `iteminfo` shape the normalizer's lines 386-404 assume: absent, or a
dict whose nonempty-list `maker` starts with a dict and whose
`actress`/`genre` values satisfy `namesListOk`. -/
def iteminfoOk (it : RawItem) : Bool :=
  match dGet it (("iteminfo").data) with
  | none => true
  | some v =>
    match v with
    | .pdict kvs =>
      (match dGet kvs (("maker").data) with
       | some (.plist (x :: _)) => (match x with | .pdict _ => true | _ => false)
       | _ => true) &&
      namesListOk (dGet kvs (("actress").data)) &&
      namesListOk (dGet kvs (("genre").data))
    | _ => false

/-- A key whose value, when present and truthy, is a string. -/
def strOrFalsy (ov : Option PyVal) : Bool :=
  match ov with
  | none => true
  | some v => (match v with | .pstr _ => true | _ => !truthy v)

/-- The field shapes `normalize_item` implicitly assumes of a raw item
(sufficient for the no-raise guarantee when the image key is absent):
`iteminfo` as above, and string-or-falsy embed and URL keys. -/
def wellShaped (it : RawItem) : Bool :=
  iteminfoOk it &&
  strOrFalsy (dGet it (("trailer_embed").data)) &&
  strOrFalsy (dGet it (("trailerEmbedURL").data)) &&
  strOrFalsy (dGet it (("sampleMovieEmbed").data)) &&
  strOrFalsy (dGet it (("embed_url").data)) &&
  strOrFalsy (dGet it (("URL").data)) &&
  strOrFalsy (dGet it (("affiliateURL").data)) &&
  strOrFalsy (dGet it (("affiliate_url").data))

lemma resolveMaker_ok (it : RawItem) (hio : iteminfoOk it = true) :
    ∃ v, resolveMaker it = .ok v := by
  unfold resolveMaker
  split
  · exact ⟨_, rfl⟩
  · rename_i hnot
    cases hii : dGet it (("iteminfo").data) with
    | none => exact ⟨_, rfl⟩
    | some ii =>
      unfold iteminfoOk at hio
      rw [hii] at hio
      cases ii with
      | pdict kvs =>
        simp only [pyIn]
        cases hmk : (dGet kvs (("maker").data)) with
        | none => simp [hmk]
        | some m =>
          simp only [hmk, Option.isSome_some, if_true]
          simp only [pySubscript, hmk]
          cases m with
          | plist xs =>
            cases xs with
            | nil => exact ⟨_, rfl⟩
            | cons x rest =>
              simp only [Bool.and_eq_true] at hio
              have hx := hio.1.1
              rw [hmk] at hx
              cases x with
              | pdict xkvs => exact ⟨_, rfl⟩
              | pstr s => simp at hx
              | pint n => simp at hx
              | plist ys => simp at hx
              | pnone => simp at hx
          | pstr s => exact ⟨_, rfl⟩
          | pint n => exact ⟨_, rfl⟩
          | pdict mkvs2 => exact ⟨_, rfl⟩
          | pnone => exact ⟨_, rfl⟩
      | pstr s => simp at hio
      | pint n => simp at hio
      | plist xs => simp at hio
      | pnone => simp at hio

lemma joinComma_ok (l : List PyVal) (h : ∀ v ∈ l, ∃ s, v = PyVal.pstr s) :
    ∃ s, joinComma l = .ok s := by
  induction l with
  | nil => exact ⟨[], rfl⟩
  | cons a t ih =>
    obtain ⟨s, rfl⟩ := h a (List.mem_cons_self a t)
    cases t with
    | nil => exact ⟨s, rfl⟩
    | cons b m =>
      obtain ⟨r, hr⟩ := ih (fun v hv => h v (by simp [hv]))
      exact ⟨s ++ ((", ").data) ++ r, by simp [joinComma, hr]⟩

lemma namesFold_strings (xs : List PyVal) :
    ∀ acc : List PyVal, xs.all nameEntryOk = true →
      (∀ v ∈ acc, ∃ s, v = PyVal.pstr s) →
      ∀ v ∈ xs.foldl (fun acc a =>
        match a with
        | PyVal.pdict akvs =>
          let nv := pyGetD akvs (("name").data) .pnone
          if truthy nv then acc ++ [nv] else acc
        | _ => acc) acc, ∃ s, v = PyVal.pstr s := by
  induction xs with
  | nil => intro acc _ hacc v hv; exact hacc v hv
  | cons a t ih =>
    intro acc hall hacc v hv
    simp only [List.all_cons, Bool.and_eq_true] at hall
    simp only [List.foldl_cons] at hv
    refine ih _ hall.2 ?_ v hv
    intro w hw
    cases a with
    | pdict akvs =>
      simp only at hw
      by_cases htr : truthy (pyGetD akvs (("name").data) .pnone) = true
      · rw [if_pos htr] at hw
        rcases List.mem_append.1 hw with hw2 | hw2
        · exact hacc w hw2
        · have hne := hall.1
          cases hg : dGet akvs (("name").data) with
          | none =>
            exfalso
            have : pyGetD akvs (("name").data) .pnone = .pnone := by
              unfold pyGetD
              rw [hg]
              rfl
            rw [this] at htr
            simp [truthy] at htr
          | some nv =>
            have hval : pyGetD akvs (("name").data) .pnone = nv := by
              unfold pyGetD
              rw [hg]
              rfl
            simp only [nameEntryOk, hg] at hne
            rw [hval] at htr hw2
            simp only [Bool.or_eq_true, Bool.not_eq_true'] at hne
            rcases hne with hne | hne
            · rw [htr] at hne; cases hne
            · cases nv with
              | pstr s =>
                simp only [List.mem_singleton] at hw2
                exact ⟨s, hw2⟩
              | pint n => simp at hne
              | plist ys => simp at hne
              | pdict zs => simp at hne
              | pnone => simp at hne
      · rw [if_neg htr] at hw
        exact hacc w hw
    | pstr s => exact hacc w hw
    | pint n => exact hacc w hw
    | plist ys => exact hacc w hw
    | pnone => exact hacc w hw

lemma collectNames_ok (kvs : List (Str × PyVal)) (key : Str)
    (h : namesListOk (dGet kvs key) = true) :
    ∃ s, collectNames (.pdict kvs) key = .ok s := by
  unfold collectNames
  simp only [pyGetMethod]
  cases hg : dGet kvs key with
  | none =>
    have hraw : pyGetD kvs key (.plist []) = .plist [] := by
      unfold pyGetD; rw [hg]; rfl
    rw [hraw]
    exact ⟨[], rfl⟩
  | some v =>
    have hraw : pyGetD kvs key (.plist []) = v := by
      unfold pyGetD; rw [hg]; rfl
    rw [hraw]
    unfold namesListOk at h
    rw [hg] at h
    cases v with
    | plist xs =>
      cases xs with
      | nil => exact ⟨[], rfl⟩
      | cons x rest =>
        simp only [pyOr, truthy, List.isEmpty_cons, Bool.not_false, if_true, pyIter]
        exact joinComma_ok _ (namesFold_strings (x :: rest) [] h (by simp))
    | pstr s =>
      simp only [Bool.not_eq_true'] at h
      have : pyOr (.pstr s) (.plist []) = .plist [] := by
        unfold pyOr
        rw [h]
        simp
      rw [this]
      exact ⟨[], rfl⟩
    | pint n =>
      simp only [Bool.not_eq_true'] at h
      have : pyOr (.pint n) (.plist []) = .plist [] := by
        unfold pyOr
        rw [h]
        simp
      rw [this]
      exact ⟨[], rfl⟩
    | pdict zs =>
      simp only [Bool.not_eq_true'] at h
      have : pyOr (.pdict zs) (.plist []) = .plist [] := by
        unfold pyOr
        rw [h]
        simp
      rw [this]
      exact ⟨[], rfl⟩
    | pnone => exact ⟨[], rfl⟩

end Fanza

namespace Fanza

/-- `strOrFalsy` on a value already extracted from the dict. -/
def strOrFalsyV (v : PyVal) : Bool :=
  match v with | .pstr _ => true | _ => !truthy v

lemma pyGet_strOrFalsyV (it : RawItem) (k : Str)
    (h : strOrFalsy (dGet it k) = true) : strOrFalsyV (pyGet it k) = true := by
  unfold strOrFalsy at h
  unfold pyGet
  cases hg : dGet it k with
  | none => rfl
  | some v =>
    rw [hg] at h
    simp only [Option.getD_some]
    exact h

lemma strOrFalsyV_of_str (v : PyVal) (h : ∃ s, v = PyVal.pstr s) :
    strOrFalsyV v = true := by
  obtain ⟨s, rfl⟩ := h
  rfl

lemma strOrFalsyV_of_shape (v : PyVal)
    (h : v = PyVal.pnone ∨ ∃ s, v = PyVal.pstr s) : strOrFalsyV v = true := by
  rcases h with rfl | ⟨s, rfl⟩ <;> rfl

lemma pyOr_shape (a b : PyVal) (ha : strOrFalsyV a = true)
    (hb : b = PyVal.pnone ∨ ∃ s, b = PyVal.pstr s) :
    pyOr a b = PyVal.pnone ∨ ∃ s, pyOr a b = PyVal.pstr s := by
  unfold pyOr
  by_cases ht : truthy a = true
  · rw [if_pos ht]
    cases a with
    | pstr s => exact Or.inr ⟨s, rfl⟩
    | pint n => unfold strOrFalsyV at ha; rw [ht] at ha; cases ha
    | plist xs => unfold strOrFalsyV at ha; rw [ht] at ha; cases ha
    | pdict kvs => unfold strOrFalsyV at ha; rw [ht] at ha; cases ha
    | pnone => unfold strOrFalsyV at ha; rw [ht] at ha; cases ha
  · rw [if_neg ht]
    exact hb

lemma pyOr_str (a b : PyVal) (ha : strOrFalsyV a = true)
    (hb : ∃ s, b = PyVal.pstr s) : ∃ s, pyOr a b = PyVal.pstr s := by
  unfold pyOr
  by_cases ht : truthy a = true
  · rw [if_pos ht]
    cases a with
    | pstr s => exact ⟨s, rfl⟩
    | pint n => unfold strOrFalsyV at ha; rw [ht] at ha; cases ha
    | plist xs => unfold strOrFalsyV at ha; rw [ht] at ha; cases ha
    | pdict kvs => unfold strOrFalsyV at ha; rw [ht] at ha; cases ha
    | pnone => unfold strOrFalsyV at ha; rw [ht] at ha; cases ha
  · rw [if_neg ht]
    exact hb

lemma etf_embed_shape (it : RawItem)
    (h1 : strOrFalsy (dGet it (("trailer_embed").data)) = true)
    (h2 : strOrFalsy (dGet it (("trailerEmbedURL").data)) = true)
    (h3 : strOrFalsy (dGet it (("sampleMovieEmbed").data)) = true)
    (h4 : strOrFalsy (dGet it (("embed_url").data)) = true) :
    (extract_trailer_fields it).embed = PyVal.pnone ∨
      ∃ s, (extract_trailer_fields it).embed = PyVal.pstr s := by
  have he : (extract_trailer_fields it).embed =
      pyOr (pyOr (pyGet it (("trailer_embed").data))
        (pyOr (pyGet it (("trailerEmbedURL").data))
          (pyOr (pyGet it (("sampleMovieEmbed").data))
            (pyOr (pyGet it (("embed_url").data)) .pnone)))) .pnone := rfl
  rw [he]
  refine pyOr_shape _ _ (strOrFalsyV_of_shape _ ?_) (Or.inl rfl)
  refine pyOr_shape _ _ (pyGet_strOrFalsyV _ _ h1) ?_
  refine pyOr_shape _ _ (pyGet_strOrFalsyV _ _ h2) ?_
  refine pyOr_shape _ _ (pyGet_strOrFalsyV _ _ h3) ?_
  exact pyOr_shape _ _ (pyGet_strOrFalsyV _ _ h4) (Or.inl rfl)

lemma build_iframe_shape (cid : PyVal) (aid size : Str) :
    build_fanza_iframe_src cid aid size = PyVal.pnone ∨
      ∃ s, build_fanza_iframe_src cid aid size = PyVal.pstr s := by
  unfold build_fanza_iframe_src
  split
  · exact Or.inl rfl
  · exact Or.inr ⟨_, rfl⟩

lemma embedInit_shape (cfg : Config.Cfg) (cid embed : PyVal)
    (h : embed = PyVal.pnone ∨ ∃ s, embed = PyVal.pstr s) :
    embedInit cfg cid embed = PyVal.pnone ∨
      ∃ s, embedInit cfg cid embed = PyVal.pstr s := by
  unfold embedInit
  split
  · exact build_iframe_shape _ _ _
  · exact h

lemma embedSizeStep_ok (cfg : Config.Cfg) (embed1 : PyVal)
    (h : embed1 = PyVal.pnone ∨ ∃ s, embed1 = PyVal.pstr s) :
    ∃ v, embedSizeStep cfg embed1 = .ok v := by
  rcases h with rfl | ⟨s, rfl⟩
  · exact ⟨_, rfl⟩
  · unfold embedSizeStep
    split
    · exact ⟨_, rfl⟩
    · exact ⟨_, rfl⟩

lemma affRawOf_str (it : RawItem)
    (h2 : strOrFalsy (dGet it (("affiliateURL").data)) = true)
    (h3 : strOrFalsy (dGet it (("affiliate_url").data)) = true) :
    ∃ s, affRawOf it = PyVal.pstr s := by
  unfold affRawOf
  refine pyOr_str _ _ (pyGet_strOrFalsyV _ _ h2) ?_
  exact pyOr_str _ _ (pyGet_strOrFalsyV _ _ h3) ⟨[], rfl⟩

lemma urlOf_str (it : RawItem)
    (h1 : strOrFalsy (dGet it (("URL").data)) = true)
    (h2 : strOrFalsy (dGet it (("affiliateURL").data)) = true) :
    ∃ s, urlOf it = PyVal.pstr s := by
  unfold urlOf
  refine pyOr_str _ _ (pyGet_strOrFalsyV _ _ h1) ?_
  exact pyOr_str _ _ (pyGet_strOrFalsyV _ _ h2) ⟨[], rfl⟩

lemma make_aff_url_str_ok (cfg : Config.Cfg) (s : Str) :
    ∃ v, Config.make_aff_url cfg (.pstr s) = .ok v := by
  unfold Config.make_aff_url
  repeat' split
  all_goals exact ⟨_, rfl⟩

lemma iiOf_shape (it : RawItem) (hio : iteminfoOk it = true) :
    ∃ kvs, iiOf it = PyVal.pdict kvs ∧
      namesListOk (dGet kvs (("actress").data)) = true ∧
      namesListOk (dGet kvs (("genre").data)) = true := by
  unfold iiOf pyGet
  cases hg : dGet it (("iteminfo").data) with
  | none => exact ⟨[], rfl, rfl, rfl⟩
  | some v =>
    unfold iteminfoOk at hio
    rw [hg] at hio
    cases v with
    | pdict kvs =>
      simp only [Bool.and_eq_true] at hio
      cases kvs with
      | nil => exact ⟨[], rfl, rfl, rfl⟩
      | cons p rest => exact ⟨p :: rest, rfl, hio.1.2, hio.2⟩
    | pstr s => exact Bool.noConfusion hio
    | pint n => exact Bool.noConfusion hio
    | plist xs => exact Bool.noConfusion hio
    | pnone => exact Bool.noConfusion hio

lemma image0Of_empty (it : RawItem) (hi : dGet it (("imageURL").data) = none) :
    image0Of it = PyVal.pstr [] := by
  unfold image0Of
  rw [hi]

end Fanza

/-- `imageFallback` from an empty jacket reduces to the `jp-` sample test. -/
lemma Fanza.imageFallback_pstr_empty (fs : Str) :
    Fanza.imageFallback (.pstr []) fs =
      (if (!fs.isEmpty && containsSub (lowerStr fs) (("jp-").data)) = true
       then PyVal.pstr fs else PyVal.pstr []) := rfl

/-- C9 (amended): on a well-shaped raw item missing the `title`, `imageURL`
and `date` keys, `normalize_item` succeeds (does not raise), its `title` and
`date` fields are present-but-empty strings, and its `image_large` is either
the empty string or — via the line 425-428 backfill — the first extracted
`jp-` sample URL, which need not be empty.  (Without the shape hypothesis
the no-raise part is false: e.g. `iteminfo: 5` raises `TypeError` at the
`"maker" in ii` test.) -/
theorem C9_normalize_missing_fields (cfg : Config.Cfg) (headOk : Str → Bool)
    (it : RawItem)
    (hws : Fanza.wellShaped it = true)
    (ht : dGet it (("title").data) = none)
    (hi : dGet it (("imageURL").data) = none)
    (hd : dGet it (("date").data) = none) :
    ∃ row, Fanza.normalize_item cfg headOk it = .ok row ∧
      row.title = PyVal.pstr [] ∧ row.date = PyVal.pstr [] ∧
      (row.image_large = PyVal.pstr [] ∨
        ∃ s, row.image_large = PyVal.pstr s ∧
          containsSub (lowerStr s) (("jp-").data) = true ∧
          (Fanza.extract_sample_images it).head? = some s) := by
  simp only [Fanza.wellShaped, Bool.and_eq_true] at hws
  obtain ⟨⟨⟨⟨⟨⟨⟨hio, he1⟩, he2⟩, he3⟩, he4⟩, hu1⟩, hu2⟩, hu3⟩ := hws
  obtain ⟨mv, hm⟩ := Fanza.resolveMaker_ok it hio
  obtain ⟨kvs, hkvs, hA, hG⟩ := Fanza.iiOf_shape it hio
  obtain ⟨astr, hact⟩ := Fanza.collectNames_ok kvs (("actress").data) hA
  obtain ⟨gstr, hgen⟩ := Fanza.collectNames_ok kvs (("genre").data) hG
  have himg := Fanza.image0Of_empty it hi
  obtain ⟨ev, hev⟩ := Fanza.embedSizeStep_ok cfg _
    (Fanza.embedInit_shape cfg (Fanza.cidOf it) _
      (Fanza.etf_embed_shape it he1 he2 he3 he4))
  obtain ⟨bs, hbase⟩ : ∃ s, pyOr (Fanza.affRawOf it)
      (pyOr (Fanza.urlOf it) (.pstr [])) = PyVal.pstr s :=
    Fanza.pyOr_str _ _
      (Fanza.strOrFalsyV_of_str _ (Fanza.affRawOf_str it hu2 hu3))
      (Fanza.pyOr_str _ _
        (Fanza.strOrFalsyV_of_str _ (Fanza.urlOf_str it hu1 hu2)) ⟨[], rfl⟩)
  obtain ⟨av, hav⟩ := Fanza.make_aff_url_str_ok cfg bs
  refine ⟨{
      cid := Fanza.cidOf it
      title := pyGetD it (("title").data) (.pstr [])
      affiliateURL := Fanza.affRawOf it
      URL := Fanza.urlOf it
      date := pyGetD it (("date").data) (.pstr [])
      maker := mv
      actress := astr
      genres := gstr
      sample_images := List.intercalate (("|").data) (Fanza.extract_sample_images it)
      image_large := Fanza.imageFallback (.pstr [])
        (((Fanza.extract_sample_images it).head?).getD [])
      trailer_url := (Fanza.extract_trailer_fields it).url
      trailer_poster := Fanza.posterStep
        (Fanza.imageFallback (.pstr [])
          (((Fanza.extract_sample_images it).head?).getD []))
        (Fanza.firstSampleStrOf
          (List.intercalate (("|").data) (Fanza.extract_sample_images it)))
        (Fanza.extract_trailer_fields it).poster
      trailer_embed := ev
      player_width := cfg.iframe_w
      player_height := cfg.iframe_h
      aspect_ratio_centi := cfg.iframe_ratio_centi
      aff_url := av }, ?_, ?_, ?_, ?_⟩
  · unfold Fanza.normalize_item
    rw [hm, hkvs, hact, hgen, himg, hev, hbase, hav]
    rfl
  · show pyGetD it (("title").data) (.pstr []) = PyVal.pstr []
    unfold pyGetD
    rw [ht]
    rfl
  · show pyGetD it (("date").data) (.pstr []) = PyVal.pstr []
    unfold pyGetD
    rw [hd]
    rfl
  · dsimp only
    rw [Fanza.imageFallback_pstr_empty]
    cases hh : (Fanza.extract_sample_images it).head? with
    | none =>
      left
      rfl
    | some u =>
      by_cases hc : (!u.isEmpty && containsSub (lowerStr u) (("jp-").data)) = true
      · right
        have hjp : containsSub (lowerStr u) (("jp-").data) = true := by
          have h2 := hc
          rw [Bool.and_eq_true] at h2
          exact h2.2
        refine ⟨u, ?_, hjp, rfl⟩
        simp only [Option.getD_some]
        rw [if_pos hc]
      · left
        simp only [Option.getD_some]
        rw [if_neg hc]

/-- Module configuration with no affiliate redirect, 1280x720 player. -/
def c9cfg : Config.Cfg :=
  { affiliate_id := [], affiliate_redirect := [], affiliate_ch := []
    iframe_size := ("1280_720").data, iframe_w := 1280, iframe_h := 720
    iframe_ratio_centi := 5625 }

def c9url : Str :=
  ("https://pics.dmm.co.jp/digital/video/abc00001/abc00001jp-001.jpg").data

/-- A raw item missing `title`, `imageURL` and `date` but carrying a `jp-`
sample image. -/
def c9item : RawItem := [((("sampleImageURL").data), PyVal.pstr c9url)]

/-- C9 (counterexample): a raw item missing the title/image/date keys but
holding a `jp-` sample gets a normalized record whose `image_large` is that
sample URL, not the empty string — the line 425-428 backfill fills the
"empty-but-present" image field. -/
theorem C9_counterexample :
    dGet c9item (("title").data) = none ∧
    dGet c9item (("imageURL").data) = none ∧
    dGet c9item (("date").data) = none ∧
    (Fanza.normalize_item c9cfg (fun _ => false) c9item).map
        (fun r => r.image_large) = .ok (.pstr c9url) ∧
    c9url ≠ [] := by
  refine ⟨rfl, rfl, rfl, ?_, by decide⟩
  rfl

theorem C9_normalize_missing_fields_witness :
    Fanza.wellShaped [] = true ∧
    dGet ([] : RawItem) (("title").data) = none ∧
    dGet ([] : RawItem) (("imageURL").data) = none ∧
    dGet ([] : RawItem) (("date").data) = none ∧
    (∃ row, Fanza.normalize_item c9cfg (fun _ => false) [] = .ok row ∧
      row.title = PyVal.pstr [] ∧ row.date = PyVal.pstr [] ∧
      (row.image_large = PyVal.pstr [] ∨
        ∃ s, row.image_large = PyVal.pstr s ∧
          containsSub (lowerStr s) (("jp-").data) = true ∧
          (Fanza.extract_sample_images []).head? = some s)) :=
  ⟨rfl, rfl, rfl, rfl,
    C9_normalize_missing_fields c9cfg (fun _ => false) [] rfl rfl rfl rfl⟩
